import Mathlib

/-!
# Helen lobby handlers: a shallow embedding

The socket handlers of `controllers/socket/internal/handler/lobby.go`, the
default handlers of `controllers/socket/socket.go` and `parseTime` of
`controllers/admin/ban.go` are embedded.  The handlers are state-passing
functions over a `World`: the persistent store
(lobby rows, slot rows, spectator and lobby-ban associations, players), the
room subscriptions of the websocket server, the armed timers and a log of
every effectful call a handler performs, in order.

Of the `models` package only `fumble.go` is among the sources; the
`controllerhelpers`, `broadcaster` and `helpers` packages are absent.  Their
operations are modelled from the specification, and each such definition says
so in its doc comment.  A store call whose error result a handler inspects can
fail: a world lists the calls its persistence collaborator refuses, and a
refused call reports an error and leaves the store as it was.
-/

set_option autoImplicit false

namespace helpers

/-- Modelled from the spec: the player roles of the absent `helpers` package
(`Normal | Admin`); `RoleAdmin` is the only role the lobby handlers test for. -/
inductive Role where
  | Normal
  | Admin
deriving DecidableEq, Repr

/-- Modelled from the spec: the structured error of the absent `helpers`
package, a message and an integer code. -/
structure TPError where
  Str : String
  Code : Int
deriving DecidableEq, Repr

/-- Modelled from the spec: the constructor `helpers.NewTPError(str, code)`. -/
def NewTPError (str : String) (code : Int) : TPError := ⟨str, code⟩

end helpers

open helpers

/-- A Go `time.Time` as the handlers use it: the instant in unix seconds and
its text under the layout `time.RFC822`, which the Go standard library computes
from the instant and its location. -/
structure Time where
  Unix : Int
  RFC822 : String
deriving DecidableEq, Repr

/-- The zero value of `time.Time`, January 1 of year 1 at 00:00 UTC. -/
def Time.zero : Time := { Unix := -62135596800, RFC822 := "01 Jan 01 00:00 UTC" }

namespace models

/-- Modelled from the spec: the `LobbyState` enumeration is declared in the
absent `models` package; section 4.3 lists these four states. -/
inductive LobbyState where
  | Waiting
  | ReadyingUp
  | InProgress
  | Ended
deriving DecidableEq, Repr

/-- Lobby formats, as enumerated by `playermap` in `LobbyCreate`. -/
inductive LobbyType where
  | Debug
  | Sixes
  | Highlander
  | Ultiduo
  | Bball
  | Fours
deriving DecidableEq, Repr

/-- Ban kinds, as enumerated by `banString` in `controllers/admin/ban.go`. -/
inductive PlayerBanType where
  | PlayerBanJoin
  | PlayerBanCreate
  | PlayerBanChat
  | PlayerBanFull
deriving DecidableEq, Repr

/-- Modelled from the spec: the `Player` record of the absent `models` package,
restricted to the fields the handlers read (identity, name, role, ban set as
ban type with expiry). -/
structure Player where
  SteamID : String
  Name : String
  Role : helpers.Role
  Bans : List (PlayerBanType × Time)
deriving DecidableEq, Repr

/-- Modelled from the spec: the lobby row of the absent `models` package,
restricted to the fields the handlers read or write.  Slot occupancy,
spectators and lobby bans are associations kept beside the row (see `World`). -/
structure Lobby where
  ID : Nat
  Typ : LobbyType
  State : LobbyState
  CreatedBySteamID : String
  ReadyUpTimestamp : Int
  Password : String
deriving DecidableEq, Repr

/-- Modelled from the spec: one occupied slot of a lobby (slot index to player
identity) together with the readiness confirmation of its occupant. -/
structure LobbySlot where
  LobbyID : Nat
  SteamID : String
  Slot : Nat
  Ready : Bool
deriving DecidableEq, Repr

/-- Modelled from the spec: the static slot table of section 4.1
(`slotFor` and `capacityOf`), which lives in the absent `models` package.
It is a parameter of the handlers that consult it. -/
structure SlotTable where
  slotFor : LobbyType → String → String → Option Nat
  capacityOf : LobbyType → Nat

end models

open models

/-- Store operations whose error result the handlers inspect.  A world lists
the ones whose persistence collaborator is failing. -/
inductive Op where
  | AddPlayer
  | RemovePlayer
  | AddSpectator
  | RemoveUnreadyPlayers
  | UnreadyAllPlayers
  | ReExecConfig
deriving DecidableEq, Repr

/-- Every effectful call a handler can perform, recorded in call order. -/
inductive Effect where
  | AddPlayer (lobby : Nat) (steamid : String) (slot : Nat)
  | RemovePlayer (lobby : Nat) (steamid : String)
  | AddSpectator (lobby : Nat) (steamid : String)
  | RemoveSpectator (lobby : Nat) (steamid : String)
  | BanPlayer (lobby : Nat) (steamid : String)
  | Close (lobby : Nat)
  | RemoveUnreadyPlayers (lobby : Nat)
  | UnreadyAllPlayers (lobby : Nat)
  | Save (lobby : Nat)
  | AddClient (conn : String) (room : String)
  | RemoveClient (conn : String) (room : String)
  | AfterFunc (seconds : Nat) (lobby : Nat)
  | SendMessageToRoom (room : String) (event : String)
  | SendMessage (steamid : String) (event : String)
  | BroadcastLobbyList
  | SendNotification (text : String) (lobby : Nat)
  | FumbleLobbyEnded (lobby : Nat)
  | LoggerError (tag : String)
  | BroadcastLobbyToUser (lobby : Nat) (steamid : String)
  | ReExecConfig (lobby : Nat)
deriving DecidableEq, Repr

/-- The state the handlers run against. -/
structure World where
  /-- Current unix time, `time.Now().Unix()`. -/
  now : Int
  lobbies : List Lobby
  players : List Player
  slots : List LobbySlot
  /-- Spectator association: lobby id, player identity. -/
  spectators : List (Nat × String)
  /-- Lobby-ban association: lobby id, player identity. -/
  bans : List (Nat × String)
  /-- Room subscriptions of the websocket server: connection id, room name. -/
  subs : List (String × String)
  /-- The broadcaster registry: player identity, connection id. -/
  sockets : List (String × String)
  /-- Armed timers: delay in seconds, lobby id the callback closes over. -/
  timers : List (Nat × Nat)
  /-- Store operations that currently fail. -/
  failing : List Op
  /-- Effects performed so far, oldest first. -/
  log : List Effect
deriving DecidableEq, Repr

/-- A websocket client: its connection id and the steam id its session
resolves to (`chelpers.GetSteamId(so.Id())`). -/
structure Client where
  Id : String
  SteamId : String
deriving DecidableEq, Repr

/-- What a handler hands back to the dispatcher. -/
inductive Reply where
  /-- The reply `chelpers.EmptySuccessJS`. -/
  | success
  /-- A `*helpers.TPError`. -/
  | error (e : helpers.TPError)
  /-- A nil `*helpers.TPError` handed back as the reply. -/
  | nilError
  /-- A nil pointer dereference. -/
  | nilDeref
deriving DecidableEq, Repr

namespace World

/-- Append one effect to the log. -/
def record (w : World) (e : Effect) : World := { w with log := w.log ++ [e] }

end World

/-- Room name `fmt.Sprintf("%d_public", id)`. -/
def publicRoom (id : Nat) : String := toString id ++ "_public"

/-- Room name `fmt.Sprintf("%d_private", id)`, also
`fmt.Sprintf("%s_private", chelpers.GetLobbyRoom(id))`. -/
def privateRoom (id : Nat) : String := toString id ++ "_private"

namespace wsevent

/-- The call `server.AddClient(so, room)`: subscribe a connection to a room
(idempotent). -/
def AddClient (w : World) (conn room : String) : World :=
  let w1 := w.record (Effect.AddClient conn room)
  if (conn, room) ∈ w1.subs then w1 else { w1 with subs := w1.subs ++ [(conn, room)] }

/-- The call `server.RemoveClient(id, room)`: drop a connection from a room. -/
def RemoveClient (w : World) (conn room : String) : World :=
  let w1 := w.record (Effect.RemoveClient conn room)
  { w1 with subs := w1.subs.filter (fun s => decide (s ≠ (conn, room))) }

end wsevent

namespace models

/-- Modelled from the spec: error of `loadPlayer` when no record exists. -/
def errPlayerNotFound : TPError := NewTPError "Player is not in the database" (-1)

/-- Modelled from the spec: error of `loadLobby` when no record exists. -/
def errLobbyNotFound : TPError := NewTPError "Lobby not in the database" (-1)

/-- Modelled from the spec: `SlotOccupied`. -/
def errSlotOccupied : TPError := NewTPError "This slot has been filled." 2

/-- Modelled from the spec: `WrongPassword`. -/
def errWrongPassword : TPError := NewTPError "Incorrect slot password" 3

/-- Modelled from the spec: rejection of a player banned from this lobby. -/
def errLobbyBanned : TPError := NewTPError "The player has been banned from this lobby." 4

/-- Modelled from the spec: `InvalidSlot`. -/
def errInvalidSlot : TPError := NewTPError "This slot does not exist." 5

/-- Modelled from the spec: `PlayerNotSeated` as reported by the store. -/
def errNotInLobby : TPError := NewTPError "Player not in any lobby" 1

/-- Modelled from the spec: failure of the persistence collaborator. -/
def errStore : TPError := NewTPError "Persistence unavailable" 6

/-- Modelled from the spec: `loadPlayer(identity)`, the absent
`models.GetPlayerBySteamID`. -/
def GetPlayerBySteamID (w : World) (steamid : String) : Except TPError Player :=
  match w.players.find? (fun p => decide (p.SteamID = steamid)) with
  | some p => .ok p
  | none => .error errPlayerNotFound

/-- Modelled from the spec: `loadLobby(id)`, the absent `models.GetLobbyByID`. -/
def GetLobbyByID (w : World) (id : Nat) : Except TPError Lobby :=
  match w.lobbies.find? (fun l => decide (l.ID = id)) with
  | some l => .ok l
  | none => .error errLobbyNotFound

/-- Modelled from the spec: the absent `models.GetLobbyByIdServer`, the lobby
lookup `LobbyClose` uses. -/
def GetLobbyByIdServer (w : World) (id : Nat) : Except TPError Lobby := GetLobbyByID w id

/-- Modelled from the spec: the absent `models.LobbyGetPlayerSlot`, the
`slotFor` lookup of section 4.1, failing with `InvalidSlot`. -/
def LobbyGetPlayerSlot (T : SlotTable) (t : LobbyType) (team cls : String) : Except TPError Nat :=
  match T.slotFor t team cls with
  | some s => .ok s
  | none => .error errInvalidSlot

/-- Modelled from the spec: the absent `Player.IsBannedWithTime`.  A ban whose
expiry is not after the current time is treated as absent. -/
def Player.IsBannedWithTime (w : World) (p : Player) (t : PlayerBanType) : Bool × Time :=
  match p.Bans.find? (fun b => decide (b.1 = t ∧ w.now < b.2.Unix)) with
  | some b => (true, b.2)
  | none => (false, Time.zero)

/-- Modelled from the spec: the absent `Player.GetLobbyID`, the lobby the
player currently holds a slot in (id 0 and an error when there is none).  The
meaning of its boolean argument is not visible in the sources; the handlers
only ever pass `false`. -/
def Player.GetLobbyID (w : World) (p : Player) (_inProgress : Bool) : Nat × Option TPError :=
  match w.slots.find? (fun s => decide (s.SteamID = p.SteamID)) with
  | some s => (s.LobbyID, none)
  | none => (0, some errNotInLobby)

/-- Modelled from the spec: the absent `Lobby.GetPlayerSlot`, the slot the
player holds in this lobby, or an error when it holds none. -/
def Lobby.GetPlayerSlot (w : World) (lob : Lobby) (p : Player) : Except TPError Nat :=
  match w.slots.find? (fun s => decide (s.LobbyID = lob.ID ∧ s.SteamID = p.SteamID)) with
  | some s => .ok s.Slot
  | none => .error errNotInLobby

/-- Modelled from the spec: the absent `Lobby.IsFull`, every slot of the
lobby type is occupied. -/
def Lobby.IsFull (T : SlotTable) (w : World) (lob : Lobby) : Bool :=
  decide (T.capacityOf lob.Typ ≤ (w.slots.filter (fun s => decide (s.LobbyID = lob.ID))).length)

/-- Modelled from the spec: the absent `Lobby.Save`, `saveLobby`: the stored
row with this id takes the fields of the in-memory copy.  Every handler discards
the result of `Save`, so no reply depends on it; the store is taken to accept
the write. -/
def Lobby.Save (w : World) (lob : Lobby) : World :=
  let w1 := w.record (Effect.Save lob.ID)
  { w1 with lobbies := w1.lobbies.map (fun l => if l.ID = lob.ID then lob else l) }

/-- Modelled from the spec: the absent `Lobby.AddPlayer`, the store half of
`join` in section 4.3.  It fails when the slot is taken, when the lobby has a
password that does not match, when the player is banned from this lobby, or
when persistence fails; on success the player gives up any slot it held and
occupies the requested one, not yet ready.  It does not reject a lobby in
progress: the handler sends `lobbyStart` after a successful `AddPlayer` on
such a lobby. -/
def Lobby.AddPlayer (w : World) (lob : Lobby) (p : Player) (slot : Nat) (password : String) :
    World × Option TPError :=
  let w1 := w.record (Effect.AddPlayer lob.ID p.SteamID slot)
  if Op.AddPlayer ∈ w1.failing then (w1, some errStore)
  else if w1.slots.any (fun s => decide (s.LobbyID = lob.ID ∧ s.Slot = slot)) then
    (w1, some errSlotOccupied)
  else if lob.Password ≠ "" ∧ password ≠ lob.Password then (w1, some errWrongPassword)
  else if (lob.ID, p.SteamID) ∈ w1.bans then (w1, some errLobbyBanned)
  else
    let others := w1.slots.filter (fun s => decide (s.SteamID ≠ p.SteamID))
    let seat : LobbySlot := { LobbyID := lob.ID, SteamID := p.SteamID, Slot := slot, Ready := false }
    ({ w1 with slots := others ++ [seat] }, none)

/-- Modelled from the spec: the absent `Lobby.RemovePlayer`, vacating the
slot the player holds in this lobby; a persistence failure is reported and
leaves the store as it was. -/
def Lobby.RemovePlayer (w : World) (lob : Lobby) (p : Player) : World × Option TPError :=
  let w1 := w.record (Effect.RemovePlayer lob.ID p.SteamID)
  if Op.RemovePlayer ∈ w1.failing then (w1, some errStore)
  else
    let kept := w1.slots.filter (fun s => decide (¬ (s.LobbyID = lob.ID ∧ s.SteamID = p.SteamID)))
    ({ w1 with slots := kept }, none)

/-- Modelled from the spec: the absent `Lobby.AddSpectator`, adding the player
to the spectator set unless already present; a persistence failure is reported
and leaves the store as it was.  The spec's `spectate` also vacates a seat held
in a different lobby; whether `AddSpectator` is the place where that happens is
not visible in the sources, and this definition leaves slot rows alone.  No
statement about `LobbySpectatorJoin` relies on what `AddSpectator` does to slot
rows. -/
def Lobby.AddSpectator (w : World) (lob : Lobby) (p : Player) : World × Option TPError :=
  let w1 := w.record (Effect.AddSpectator lob.ID p.SteamID)
  if Op.AddSpectator ∈ w1.failing then (w1, some errStore)
  else if (lob.ID, p.SteamID) ∈ w1.spectators then (w1, none)
  else ({ w1 with spectators := w1.spectators ++ [(lob.ID, p.SteamID)] }, none)

/-- Modelled from the spec: the absent `Lobby.RemoveSpectator`, removing the
player from the spectator set.  Its result is never inspected by a handler. -/
def Lobby.RemoveSpectator (w : World) (lob : Lobby) (p : Player) (_broadcast : Bool) : World :=
  let w1 := w.record (Effect.RemoveSpectator lob.ID p.SteamID)
  { w1 with spectators := w1.spectators.filter (fun s => decide (s ≠ (lob.ID, p.SteamID))) }

/-- Modelled from the spec: the absent `Lobby.BanPlayer`, marking the player
ineligible to rejoin this lobby. -/
def Lobby.BanPlayer (w : World) (lob : Lobby) (p : Player) : World :=
  let w1 := w.record (Effect.BanPlayer lob.ID p.SteamID)
  if (lob.ID, p.SteamID) ∈ w1.bans then w1
  else { w1 with bans := w1.bans ++ [(lob.ID, p.SteamID)] }

/-- Modelled from the spec: the absent `Lobby.Close`, forcing the state to
`Ended` and clearing all slot and spectator membership of the lobby. -/
def Lobby.Close (w : World) (lob : Lobby) (_rpc : Bool) : World :=
  let w1 := w.record (Effect.Close lob.ID)
  let rows := w1.lobbies.map (fun l => if l.ID = lob.ID then { l with State := LobbyState.Ended } else l)
  let seats := w1.slots.filter (fun s => decide (s.LobbyID ≠ lob.ID))
  let watchers := w1.spectators.filter (fun s => decide (s.1 ≠ lob.ID))
  { w1 with lobbies := rows, slots := seats, spectators := watchers }

/-- Modelled from the spec: the absent `Lobby.RemoveUnreadyPlayers`, reverting
every occupant that has not confirmed readiness to vacated; a persistence
failure is reported and leaves the store as it was.  The meaning of its
boolean argument is not visible in the sources. -/
def Lobby.RemoveUnreadyPlayers (w : World) (lob : Lobby) (_spec : Bool) : World × Option TPError :=
  let w1 := w.record (Effect.RemoveUnreadyPlayers lob.ID)
  if Op.RemoveUnreadyPlayers ∈ w1.failing then (w1, some errStore)
  else
    let kept := w1.slots.filter (fun s => decide (¬ (s.LobbyID = lob.ID ∧ s.Ready = false)))
    ({ w1 with slots := kept }, none)

/-- Modelled from the spec: the absent `Lobby.UnreadyAllPlayers`, un-readying
every occupant of the lobby; a persistence failure is reported and leaves the
store as it was. -/
def Lobby.UnreadyAllPlayers (w : World) (lob : Lobby) : World × Option TPError :=
  let w1 := w.record (Effect.UnreadyAllPlayers lob.ID)
  if Op.UnreadyAllPlayers ∈ w1.failing then (w1, some errStore)
  else
    let reset := w1.slots.map (fun s => if s.LobbyID = lob.ID then { s with Ready := false } else s)
    ({ w1 with slots := reset }, none)

/-- The call `models.FumbleLobbyEnded(lob)`: a remote call whose failure is
only logged. -/
def FumbleLobbyEnded (w : World) (lob : Lobby) : World :=
  w.record (Effect.FumbleLobbyEnded lob.ID)

/-- Modelled from the spec: the absent `models.BroadcastLobbyList`, a
broadcast with no effect on the store. -/
def BroadcastLobbyList (w : World) : World := w.record Effect.BroadcastLobbyList

/-- Modelled from the spec: the absent `models.SendNotification`, a broadcast
with no effect on the store. -/
def SendNotification (w : World) (text : String) (lobby : Nat) : World :=
  w.record (Effect.SendNotification text lobby)

end models

namespace broadcaster

/-- Modelled from the spec: the absent `broadcaster.GetSocket`, the single
active connection registered for a player identity, if any. -/
def GetSocket (w : World) (steamid : String) : Option Client :=
  match w.sockets.find? (fun s => decide (s.1 = steamid)) with
  | some s => some { Id := s.2, SteamId := steamid }
  | none => none

/-- Modelled from the spec: the absent `broadcaster.SendMessageToRoom`,
`publish(room, message)`. -/
def SendMessageToRoom (w : World) (room event : String) : World :=
  w.record (Effect.SendMessageToRoom room event)

/-- Modelled from the spec: the absent `broadcaster.SendMessage`,
`sendDirect(playerIdentity, message)`. -/
def SendMessage (w : World) (steamid event : String) : World :=
  w.record (Effect.SendMessage steamid event)

end broadcaster

namespace chelpers

/-- Modelled from the spec: the absent `chelpers.AfterLobbyJoin`.  The
connection is subscribed to the private room of the lobby (seated players
only) and the player is sent `lobbyJoined`, the message `TestLobbyJoin`
reads. -/
def AfterLobbyJoin (w : World) (so : Client) (lob : Lobby) (player : Player) : World :=
  broadcaster.SendMessage (wsevent.AddClient w so.Id (privateRoom lob.ID)) player.SteamID "lobbyJoined"

/-- Modelled from the spec: the absent `chelpers.AfterLobbyLeave`.  The
connection, when there is one, leaves the private room of the lobby and the
player is sent `lobbyLeft`. -/
def AfterLobbyLeave (w : World) (so : Option Client) (lob : Lobby) (player : Player) : World :=
  let w1 := match so with
    | some c => wsevent.RemoveClient w c.Id (privateRoom lob.ID)
    | none => w
  broadcaster.SendMessage w1 player.SteamID "lobbyLeft"

end chelpers

/-- The call `until.Format(time.RFC822)` of the Go standard library. -/
def formatRFC822 (t : Time) : String := t.RFC822

namespace handler

/-- Decoded arguments of `lobbyKick` and `lobbyBan`. -/
structure KickArgs where
  Id : Nat
  Steamid : String
deriving DecidableEq, Repr

/-- Decoded arguments of `lobbyClose` and `lobbyLeave`. -/
structure IdArgs where
  Id : Nat
deriving DecidableEq, Repr

/-- Decoded arguments of `lobbyJoin`. -/
structure JoinArgs where
  Id : Nat
  Class : String
  Team : String
  Password : String
deriving DecidableEq, Repr

/-- Handing a `*helpers.TPError` back as the reply. -/
def replyOf : Option TPError → Reply
  | some e => Reply.error e
  | none => Reply.nilError

/-- Source `playerCanKick` (lobby.go 472-486). -/
def playerCanKick (w : World) (lobbyId : Nat) (steamId : String) : Bool × Option TPError :=
  match GetLobbyByID w lobbyId with
  | .error tperr => (false, some tperr)
  | .ok lob =>
    match GetPlayerBySteamID w steamId with
    | .error tperr2 => (false, some tperr2)
    | .ok player =>
      if steamId ≠ lob.CreatedBySteamID ∧ player.Role ≠ Role.Admin then
        (false, some (NewTPError "Not authorized to kick players" 1))
      else (true, none)

/-- Source `removePlayerFromLobby` (lobby.go 442-470). -/
def removePlayerFromLobby (w : World) (lobbyId : Nat) (steamId : String) :
    World × Option Lobby × Option Player × Option TPError :=
  match GetPlayerBySteamID w steamId with
  | .error tperr => (w, none, none, some tperr)
  | .ok player =>
    match GetLobbyByID w lobbyId with
    | .error tperr => (w, none, none, some tperr)
    | .ok lob =>
      match lob.State with
      | LobbyState.InProgress =>
        (w, some lob, some player, some (NewTPError "Lobby is in progress." 1))
      | LobbyState.Ended =>
        (w, some lob, some player, some (NewTPError "Lobby has closed." 1))
      | _ =>
        match lob.GetPlayerSlot w player with
        | .error _ => (w, some lob, some player, some (NewTPError "Player not playing" 2))
        | .ok _ =>
          match lob.RemovePlayer w player with
          | (w1, some err) => (w1, some lob, some player, some err)
          | (w1, none) =>
            match lob.AddSpectator w1 player with
            | (w2, res) => (w2, some lob, some player, res)

/-- Source `Lobby.LobbyKick` (lobby.go 488-520). -/
def LobbyKick (w : World) (so : Client) (args : Except TPError KickArgs) : World × Reply :=
  match args with
  | .error err => (w, Reply.error err)
  | .ok a =>
    let steamId := a.Steamid
    let selfSteamId := so.SteamId
    if steamId = selfSteamId then
      (w, Reply.error (NewTPError "Player can't kick himself." (-1)))
    else
      match playerCanKick w a.Id selfSteamId with
      | (false, tperr) => (w, replyOf tperr)
      | (true, _) =>
        match removePlayerFromLobby w a.Id steamId with
        | (w1, _, _, some tperr) => (w1, Reply.error tperr)
        | (w1, some lob, some player, none) =>
          (chelpers.AfterLobbyLeave w1 (broadcaster.GetSocket w1 player.SteamID) lob player,
            Reply.success)
        | (w1, _, _, none) => (w1, Reply.nilDeref)

/-- Source `Lobby.LobbyBan` (lobby.go 522-556). -/
def LobbyBan (w : World) (so : Client) (args : Except TPError KickArgs) : World × Reply :=
  match args with
  | .error err => (w, Reply.error err)
  | .ok a =>
    let steamId := a.Steamid
    let selfSteamId := so.SteamId
    if steamId = selfSteamId then
      (w, Reply.error (NewTPError "Player can't kick himself." (-1)))
    else
      match playerCanKick w a.Id selfSteamId with
      | (false, tperr) => (w, replyOf tperr)
      | (true, _) =>
        match removePlayerFromLobby w a.Id steamId with
        | (w1, _, _, some tperr) => (w1, Reply.error tperr)
        | (w1, some lob, some player, none) =>
          let w2 := lob.BanPlayer w1 player
          (chelpers.AfterLobbyLeave w2 (broadcaster.GetSocket w2 player.SteamID) lob player,
            Reply.success)
        | (w1, _, _, none) => (w1, Reply.nilDeref)

/-- Source `Lobby.LobbyLeave` (lobby.go 558-576). -/
def LobbyLeave (w : World) (so : Client) (args : Except TPError IdArgs) : World × Reply :=
  match args with
  | .error err => (w, Reply.error err)
  | .ok a =>
    let steamId := so.SteamId
    match removePlayerFromLobby w a.Id steamId with
    | (w1, _, _, some tperr) => (w1, Reply.error tperr)
    | (w1, some lob, some player, none) =>
      (chelpers.AfterLobbyLeave w1 (some so) lob player, Reply.success)
    | (w1, _, _, none) => (w1, Reply.nilDeref)

/-- Source `Lobby.LobbyClose` (lobby.go 252-287).  The player lookup error is
discarded by the source, so a missing record is a nil pointer, dereferenced by
the authorization test. -/
def LobbyClose (w : World) (so : Client) (args : Except TPError IdArgs) : World × Reply :=
  match args with
  | .error err => (w, Reply.error err)
  | .ok a =>
    let player := (GetPlayerBySteamID w so.SteamId).toOption
    match GetLobbyByIdServer w a.Id with
    | .error tperr => (w, Reply.error tperr)
    | .ok lob =>
      match player with
      | none => (w, Reply.nilDeref)
      | some player =>
        if player.SteamID ≠ lob.CreatedBySteamID ∧ player.Role ≠ Role.Admin then
          (w, Reply.error (NewTPError "Player not authorized to close lobby." (-1)))
        else if lob.State = LobbyState.Ended then
          (w, Reply.error (NewTPError "Lobby already closed." (-1)))
        else
          let w1 := FumbleLobbyEnded w lob
          let w2 := lob.Close w1 true
          let w3 := BroadcastLobbyList w2
          let notify := "Lobby closed by " ++ player.Name
          let w4 := SendNotification w3 notify lob.ID
          (w4, Reply.success)

/-- The closure `LobbyJoin` hands to `time.AfterFunc` (lobby.go 349-371), as a
function of the id of the lobby it closes over.  The lobby row is loaded anew;
a row that no longer exists is outside the model (`none`). -/
def expireReadyUp (w : World) (lobID : Nat) : Option World :=
  match w.lobbies.find? (fun l => decide (l.ID = lobID)) with
  | none => none
  | some lobby =>
    if lobby.State ≠ LobbyState.InProgress then
      let r1 := lobby.RemoveUnreadyPlayers w true
      let w1 := match r1.2 with
        | some _ => r1.1.record (Effect.LoggerError "RemoveUnreadyPlayers: ")
        | none => r1.1
      let r2 := lobby.UnreadyAllPlayers w1
      let w2 := match r2.2 with
        | some _ => r2.1.record (Effect.LoggerError "UnreadyAllPlayers: ")
        | none => r2.1
      some (Lobby.Save w2 { lobby with State := LobbyState.Waiting })
    else some w

/-- Lines 344-386 of `LobbyJoin`: what follows a successful `AddPlayer` and
the join hook. -/
def LobbyJoin.afterJoin (T : SlotTable) (w : World) (lob : Lobby) (player : Player) : World × Reply :=
  let r :=
    if lob.IsFull T w then
      let lob1 := { lob with State := LobbyState.ReadyingUp, ReadyUpTimestamp := w.now + 30 }
      let w1 := Lobby.Save w lob1
      let w2 := { w1.record (Effect.AfterFunc 30 lob.ID) with timers := w1.timers ++ [(30, lob.ID)] }
      let room := privateRoom lob.ID
      let w3 := broadcaster.SendMessageToRoom w2 room "lobbyReadyUp"
      (BroadcastLobbyList w3, lob1)
    else (w, lob)
  if r.2.State = LobbyState.InProgress then
    (broadcaster.SendMessage r.1 player.SteamID "lobbyStart", Reply.success)
  else (r.1, Reply.success)

/-- Source `Lobby.LobbyJoin` (lobby.go 289-387).  The player lookup error is
discarded by the source, so a missing record is a nil pointer, dereferenced by
the ban lookup. -/
def LobbyJoin (T : SlotTable) (w : World) (so : Client) (args : Except TPError JoinArgs) :
    World × Reply :=
  match GetPlayerBySteamID w so.SteamId with
  | .error _ => (w, Reply.nilDeref)
  | .ok player =>
    match player.IsBannedWithTime w PlayerBanType.PlayerBanJoin with
    | (true, till) =>
      (w, Reply.error (NewTPError
        ("You have been banned from joining lobbies till " ++ formatRFC822 till) (-1)))
    | (false, _) =>
      match args with
      | .error err => (w, Reply.error err)
      | .ok a =>
        match GetLobbyByID w a.Id with
        | .error tperr => (w, Reply.error tperr)
        | .ok lob =>
          if lob.State = LobbyState.Ended then
            (w, Reply.error (NewTPError "Cannot join a closed lobby." (-1)))
          else
            let cur := player.GetLobbyID w false
            let sameLobby : Bool := decide (cur.2 = none ∧ cur.1 = a.Id)
            match LobbyGetPlayerSlot T lob.Typ a.Team a.Class with
            | .error tperr => (w, Reply.error tperr)
            | .ok slot =>
              let prevId := (player.GetLobbyID w false).1
              let w1 :=
                if prevId ≠ 0 ∧ sameLobby = false then
                  wsevent.RemoveClient (wsevent.RemoveClient w so.Id (publicRoom prevId))
                    so.Id (privateRoom prevId)
                else w
              match lob.AddPlayer w1 player slot a.Password with
              | (w2, some tperr) => (w2, Reply.error tperr)
              | (w2, none) =>
                let w3 := if sameLobby = false then chelpers.AfterLobbyJoin w2 so lob player else w2
                LobbyJoin.afterJoin T w3 lob player

end handler


/-! ## Spectating, server reset and the handlers outside the lobby state machine -/

namespace models

/-- Modelled from the spec: the absent `Player.IsSpectatingID`, membership of
the player in the spectator set of the lobby. -/
def Player.IsSpectatingID (w : World) (p : Player) (lobbyid : Nat) : Bool :=
  decide ((lobbyid, p.SteamID) ∈ w.spectators)

/-- Modelled from the spec: the absent `Player.GetSpectatingIds`, the ids of
the lobbies the player currently spectates. -/
def Player.GetSpectatingIds (w : World) (p : Player) : List Nat :=
  (w.spectators.filter (fun s => decide (s.2 = p.SteamID))).map (fun s => s.1)

/-- Modelled from the spec: the absent `models.BroadcastLobbyToUser`, a direct
delivery with no effect on the store. -/
def BroadcastLobbyToUser (w : World) (lob : Lobby) (steamid : String) : World :=
  w.record (Effect.BroadcastLobbyToUser lob.ID steamid)

/-- Modelled from the spec: the absent `models.ReExecConfig`, a call to the
game-server collaborator that either fails or leaves the store as it was. -/
def ReExecConfig (w : World) (lobbyid : Nat) : World × Option TPError :=
  let w1 := w.record (Effect.ReExecConfig lobbyid)
  if Op.ReExecConfig ∈ w1.failing then (w1, some errStore) else (w1, none)

end models

namespace chelpers

/-- Modelled from the spec: the absent `chelpers.AfterLobbySpec`.  The
connection is subscribed to the public room of the lobby (seated players and
spectators). -/
def AfterLobbySpec (w : World) (so : Client) (lob : Lobby) : World :=
  wsevent.AddClient w so.Id (publicRoom lob.ID)

/-- Modelled from the spec: the absent `chelpers.AfterLobbySpecLeave`.  The
connection leaves the public room of the lobby. -/
def AfterLobbySpecLeave (w : World) (so : Client) (lob : Lobby) : World :=
  wsevent.RemoveClient w so.Id (publicRoom lob.ID)

end chelpers

namespace handler

/-- The loop of `LobbySpectatorJoin` over the spectated lobby ids (lobby.go
414-424), threading the world and the flag `specSameLobby`.  The lookup error
of `GetLobbyByID` is discarded by the source, so a missing row is a nil
receiver: the loop stops with the world reached so far. -/
def LobbySpectatorJoin.loop (so : Client) (player : Player) (target : Nat) :
    List Nat → World → Bool → Except World (World × Bool)
  | [], w, specSameLobby => .ok (w, specSameLobby)
  | id :: rest, w, specSameLobby =>
    if id = target then LobbySpectatorJoin.loop so player target rest w true
    else
      match GetLobbyByID w id with
      | .error _ => .error w
      | .ok lobby =>
        let w1 := lobby.RemoveSpectator w player true
        let w2 := wsevent.RemoveClient w1 so.Id (publicRoom id)
        LobbySpectatorJoin.loop so player target rest w2 specSameLobby

/-- Source `Lobby.LobbySpectatorJoin` (lobby.go 389-440). -/
def LobbySpectatorJoin (w : World) (so : Client) (args : Except TPError IdArgs) : World × Reply :=
  match args with
  | .error err => (w, Reply.error err)
  | .ok a =>
    match GetLobbyByID w a.Id with
    | .error tperr => (w, Reply.error tperr)
    | .ok lob =>
      match GetPlayerBySteamID w so.SteamId with
      | .error tperr => (w, Reply.error tperr)
      | .ok player =>
        let arr := player.GetSpectatingIds w
        match LobbySpectatorJoin.loop so player a.Id arr w false with
        | .error w1 => (w1, Reply.nilDeref)
        | .ok (w1, specSameLobby) =>
          if (player.GetLobbyID w1 false).1 ≠ a.Id ∧ specSameLobby = false then
            match lob.AddSpectator w1 player with
            | (w2, some tperr) => (w2, Reply.error tperr)
            | (w2, none) =>
              (BroadcastLobbyToUser (chelpers.AfterLobbySpec w2 so lob) lob player.SteamID,
                Reply.success)
          else
            (BroadcastLobbyToUser (chelpers.AfterLobbySpec w1 so lob) lob player.SteamID,
              Reply.success)

/-- Source `Lobby.LobbySpectatorLeave` (lobby.go 578-608). -/
def LobbySpectatorLeave (w : World) (so : Client) (args : Except TPError IdArgs) : World × Reply :=
  match args with
  | .error err => (w, Reply.error err)
  | .ok a =>
    let steamId := so.SteamId
    match GetPlayerBySteamID w steamId with
    | .error tperr => (w, Reply.error tperr)
    | .ok player =>
      match GetLobbyByID w a.Id with
      | .error tperr => (w, Reply.error tperr)
      | .ok lob =>
        if player.IsSpectatingID w lob.ID = false ∧ (player.GetLobbyID w false).1 = a.Id then
          (chelpers.AfterLobbySpecLeave w so lob, Reply.success)
        else
          let w1 := lob.RemoveSpectator w player true
          (chelpers.AfterLobbySpecLeave w1 so lob, Reply.success)

/-- Source `Lobby.LobbyServerReset` (lobby.go 179-213).  The lobby lookup
yields the row or its error; the error is only looked at after the
authorization test, which reads the creator through the lobby pointer, so a
missing row is a nil pointer dereferenced by that test. -/
def LobbyServerReset (w : World) (so : Client) (args : Except TPError IdArgs) : World × Reply :=
  match args with
  | .error err => (w, Reply.error err)
  | .ok a =>
    match GetPlayerBySteamID w so.SteamId with
    | .error tperr => (w, Reply.error tperr)
    | .ok player =>
      let found := GetLobbyByID w a.Id
      let tperr : Option TPError := match found with
        | .error e => some e
        | .ok _ => none
      match found.toOption with
      | none => (w, Reply.nilDeref)
      | some lobby =>
        if player.SteamID ≠ lobby.CreatedBySteamID ∨ player.Role ≠ Role.Admin then
          (w, Reply.error (NewTPError "Player not authorized to reset server." (-1)))
        else
          match tperr with
          | some e => (w, Reply.error e)
          | none =>
            if lobby.State = LobbyState.Ended then
              (w, Reply.error (NewTPError "Lobby has ended" 1))
            else
              match ReExecConfig w lobby.ID with
              | (w1, some err) => (w1, Reply.error err)
              | (w1, none) => (w1, Reply.success)

end handler

namespace handler

/-- The Go conversion `string(b)` of a byte value: the UTF-8 encoding of the
code point `b`, one byte below 128 and two bytes from 128 on. -/
def stringOfByte (b : Nat) : List Nat :=
  if b < 128 then [b] else [192 + b / 64, 128 + b % 64]

/-- Source `Lobby.Name` (lobby.go 25-27) on the bytes of the string: the first
byte plus 32 in byte arithmetic, converted to a string, followed by `s[1:]`.
Indexing the empty string is out of range (`none`). -/
def Name (s : List Nat) : Option (List Nat) :=
  match s with
  | [] => none
  | s0 :: rest => some (stringOfByte ((s0 + 32) % 256) ++ rest)

/-- The bytes of a string made of ASCII characters. -/
def bytesOf (s : String) : List Nat := s.data.map Char.toNat

end handler

namespace socket

/-- The default handler of the authenticated server (socket.go 63-65). -/
def DefaultHandler (w : World) (_so : Client) : World × Reply :=
  (w, Reply.error (NewTPError "No such request." (-3)))

/-- The default handler of the unauthenticated server (socket.go 91-93). -/
def noAuthDefaultHandler (w : World) (_so : Client) : World × Reply :=
  (w, Reply.error (NewTPError "Player isn't logged in." (-4)))

end socket

/-! ## Pattern matching of the Go regular expressions used by the handlers -/

/-- The class `\d` of Go regular expressions: an ASCII digit. -/
def isDigit (c : Char) : Bool := decide (48 ≤ c.toNat ∧ c.toNat ≤ 57)

/-- The class `[a-z]`. -/
def isLower (c : Char) : Bool := decide (97 ≤ c.toNat ∧ c.toNat ≤ 122)

/-- The class `.` of Go regular expressions: any character but a line feed. -/
def isDot (c : Char) : Bool := decide (c.toNat ≠ 10)

/-- Whether the list starts with the given characters. -/
def startsWith : List Char → List Char → Bool
  | [], _ => true
  | _ :: _, [] => false
  | p :: ps, c :: cs => decide (p = c) && startsWith ps cs

namespace handler

/-- The pattern `validAddress` (lobby.go 215), `.+\:\d+`, as `MatchString`: some
character other than a line feed is followed by a colon and a digit. -/
def validAddress : List Char → Bool
  | [] => false
  | c :: cs =>
    (isDot c && (match cs with
      | k :: d :: _ => decide (k.toNat = 58) && isDigit d
      | _ => false)) || validAddress cs

/-- The literal part of the pattern `rSteamGroup`. -/
def steamGroupLiteral : List Char := "steamcommunity.com/groups/".data

/-- The pattern `rSteamGroup` (lobby.go 29), `steamcommunity\.com\/groups\/(.+)`,
as `MatchString`: the literal occurs followed by a character other than a line
feed. -/
def rSteamGroup : List Char → Bool
  | [] => false
  | c :: cs =>
    (startsWith steamGroupLiteral (c :: cs) &&
      (match (c :: cs).drop steamGroupLiteral.length with
        | k :: _ => isDot k
        | [] => false)) || rSteamGroup cs

/-- The capture group of the leftmost match of `rSteamGroup`: what follows the
literal up to the end of the line (`FindStringSubmatch(...)[1]`). -/
def rSteamGroupCapture : List Char → List Char
  | [] => []
  | c :: cs =>
    if startsWith steamGroupLiteral (c :: cs) &&
        (match (c :: cs).drop steamGroupLiteral.length with
          | k :: _ => isDot k
          | [] => false) then
      ((c :: cs).drop steamGroupLiteral.length).takeWhile isDot
    else rSteamGroupCapture cs

/-- Decoded arguments of `serverVerify`. -/
structure VerifyArgs where
  Server : String
  Rconpwd : String
deriving DecidableEq, Repr

/-- Source `Lobby.ServerVerify` (lobby.go 217-250) up to the address test.
What follows the test (the server-record count, the temporary record and the
remote verification, lines 231-249) is the parameter `rest`. -/
def ServerVerify (rest : World → Client → VerifyArgs → World × Reply) (w : World) (so : Client)
    (args : Except TPError VerifyArgs) : World × Reply :=
  match args with
  | .error err => (w, Reply.error err)
  | .ok a =>
    if validAddress a.Server.data = false then
      (w, Reply.error (NewTPError "Invalid Server Address" (-1)))
    else rest w so a

/-- Source type `Restriction` (lobby.go 31-34). -/
structure Restriction where
  Red : Bool
  Blu : Bool
deriving DecidableEq, Repr

/-- Source type `Requirement` (lobby.go 35-39). -/
structure Requirement where
  Hours : Int
  Lobbies : Int
  Restricted : Restriction
deriving DecidableEq, Repr

/-- Decoded arguments of `lobbyCreate` (lobby.go 64-80). -/
structure CreateArgs where
  Map : String
  Typ : String
  League : String
  Server : String
  RconPwd : String
  WhitelistID : String
  Mumble : Bool
  Password : String
  SteamGroupWhitelist : String
  Requirements : Option (List (String × Requirement) × Requirement)
deriving DecidableEq, Repr

/-- Source `Lobby.LobbyCreate` (lobby.go 57-177) up to the Steam group test.
The creation proper (lines 95-176), which receives the captured group name, is
the parameter `rest`.  The player lookup error is discarded by the source, so a
missing record is a nil pointer, dereferenced by the ban lookup. -/
def LobbyCreate (rest : World → Client → Player → CreateArgs → String → World × Reply)
    (w : World) (so : Client) (args : Except TPError CreateArgs) : World × Reply :=
  match GetPlayerBySteamID w so.SteamId with
  | .error _ => (w, Reply.nilDeref)
  | .ok player =>
    match player.IsBannedWithTime w PlayerBanType.PlayerBanCreate with
    | (true, till) =>
      (w, Reply.error (NewTPError
        ("You've been banned from creating lobbies till " ++ formatRFC822 till) (-1)))
    | (false, _) =>
      match args with
      | .error err => (w, Reply.error err)
      | .ok a =>
        if a.SteamGroupWhitelist ≠ "" ∧ rSteamGroup a.SteamGroupWhitelist.data = false then
          (w, Reply.error (NewTPError "Invalid Steam group URL" (-1)))
        else if rSteamGroup a.SteamGroupWhitelist.data = true then
          rest w so player a (String.mk (rSteamGroupCapture a.SteamGroupWhitelist.data))
        else rest w so player a ""

end handler

/-- The code of the error a reply carries, if it is an error. -/
def Reply.errorCode : Reply → Option Int
  | Reply.error e => some e.Code
  | _ => none

namespace admin

/-- The Go type `int` on a 64-bit platform: reduction of an integer into the
signed 64-bit range. -/
def wrapInt64 (x : Int) : Int := (x + 2 ^ 63) % 2 ^ 64 - 2 ^ 63

/-- A match of `\d+[a-z]` at the head of the list: the longest run of digits,
which must not be empty, and the lower-case letter that follows it. -/
def matchHere (cs : List Char) : Option (List Char) :=
  match cs.takeWhile isDigit, cs.dropWhile isDigit with
  | [], _ => none
  | _ :: _, [] => none
  | d :: ds, c :: _ => if isLower c then some (d :: ds ++ [c]) else none

/-- The leftmost match of the pattern `timeRe` (ban.go 19), `(\d+[a-z])`. -/
def timeReFind : List Char → Option (List Char)
  | [] => none
  | c :: cs =>
    match matchHere (c :: cs) with
    | some m => some m
    | none => timeReFind cs

/-- The call `timeRe.FindStringSubmatch(str)`: the leftmost match followed by
its one capture group, which is the whole match; empty when nothing matches. -/
def FindStringSubmatch (str : List Char) : List (List Char) :=
  match timeReFind str with
  | some m => [m, m]
  | none => []

/-- The call `strconv.Atoi` on a run of ASCII digits: the decimal value, or,
when it does not fit the type `int`, the range error naming the quoted input. -/
def Atoi (digits : List Char) : Except String Int :=
  let n : Nat := digits.foldl (fun (acc : Nat) (c : Char) => 10 * acc + (c.toNat - 48)) 0
  if n < 2 ^ 63 then .ok (n : Int)
  else .error ("strconv.Atoi: parsing \"" ++ String.mk digits ++ "\": value out of range")

/-- The five counters of `parseTime`. -/
structure Units where
  year : Int
  month : Int
  week : Int
  day : Int
  hour : Int
deriving DecidableEq, Repr

/-- One pass of the loop body of `parseTime` (ban.go 37-55). -/
def parseTime.step (u : Units) (m : List Char) : Except String Units :=
  let suffix := m.getLast?
  let pre := m.dropLast
  match Atoi pre with
  | .error err => .error err
  | .ok num =>
    match suffix with
    | some 'y' => .ok { u with year := num }
    | some 'm' => .ok { u with month := num }
    | some 'w' => .ok { u with week := num }
    | some 'd' => .ok { u with day := num }
    | some 'h' => .ok { u with hour := num }
    | _ => .ok u

/-- The loop of `parseTime` over the matches. -/
def parseTime.loop : List (List Char) → Units → Except String Units
  | [], u => .ok u
  | m :: rest, u =>
    match parseTime.step u m with
    | .error err => .error err
    | .ok u1 => parseTime.loop rest u1

/-- What `parseTime` adds to the current time: the three arguments of
`AddDate` and the argument of `Add` in nanoseconds. -/
structure Advance where
  years : Int
  months : Int
  days : Int
  nanos : Int
deriving DecidableEq, Repr

/-- Source `parseTime` (ban.go 28-60).  The result is the time
`time.Now().AddDate(years, months, days).Add(nanos)`, given by its arguments. -/
def parseTime (str : String) : Except String Advance :=
  if (timeReFind str.data).isSome = false then .error "Invalid time duration"
  else
    match parseTime.loop (FindStringSubmatch str.data) ⟨0, 0, 0, 0, 0⟩ with
    | .error err => .error err
    | .ok u =>
      .ok { years := u.year, months := u.month, days := wrapInt64 (u.week * 7 + u.day),
            nanos := wrapInt64 (3600000000000 * u.hour) }

end admin

/-- Whether an effect is a call of `server.RemoveClient`. -/
def Effect.isRemoveClient : Effect → Bool
  | Effect.RemoveClient _ _ => true
  | _ => false
/-! ## Concrete worlds used by the closed theorems -/

namespace Sample

/-- A slot table with one two-seat format, enough to fill a lobby by hand. -/
def table : SlotTable where
  slotFor := fun t team cls =>
    if t = LobbyType.Debug ∧ cls = "scout1" then
      (if team = "red" then some 0 else if team = "blu" then some 1 else none)
    else none
  capacityOf := fun t => if t = LobbyType.Debug then 2 else 12

/-- A player record with no bans. -/
def mkPlayer (steamid : String) (role : Role) : Player :=
  { SteamID := steamid, Name := steamid, Role := role, Bans := [] }

/-- A two-seat lobby row created by `owner`. -/
def mkLobby (id : Nat) (st : LobbyState) : Lobby :=
  { ID := id, Typ := LobbyType.Debug, State := st, CreatedBySteamID := "owner",
    ReadyUpTimestamp := 0, Password := "" }

/-- The players of every sample world: the lobby creator, an administrator and
two ordinary players. -/
def players : List Player :=
  [mkPlayer "owner" Role.Normal, mkPlayer "admin" Role.Admin,
   mkPlayer "alice" Role.Normal, mkPlayer "bob" Role.Normal]

/-- A world with the given lobby rows and slot rows and nothing else. -/
def mkWorld (lobbies : List Lobby) (slots : List LobbySlot) : World :=
  { now := 1000, lobbies := lobbies, players := players, slots := slots, spectators := [],
    bans := [], subs := [], sockets := [], timers := [], failing := [], log := [] }

/-- The connection of `alice`. -/
def aliceConn : Client := { Id := "c-alice", SteamId := "alice" }

/-- The connection of `bob`. -/
def bobConn : Client := { Id := "c-bob", SteamId := "bob" }

/-- The connection of the lobby creator. -/
def ownerConn : Client := { Id := "c-owner", SteamId := "owner" }

/-- Lobby 1 is waiting with `alice` seated in slot 0. -/
def waitingWorld : World :=
  mkWorld [mkLobby 1 LobbyState.Waiting] [{ LobbyID := 1, SteamID := "alice", Slot := 0, Ready := false }]

/-- The world after `bob` takes the last free seat of lobby 1: the lobby is
readying up and its expiry timer is armed. -/
def fullWorld : World :=
  (handler.LobbyJoin table waitingWorld bobConn (.ok ⟨1, "scout1", "blu", ""⟩)).1

/-- The world after the creator closes lobby 1 while the timer is pending. -/
def closedWorld : World := (handler.LobbyClose fullWorld ownerConn (.ok ⟨1⟩)).1

/-- Lobby 1 holds `alice` in slot 0, whose connection is subscribed to both
rooms of lobby 1; lobby 2 holds `bob` in slot 0. -/
def twoLobbies : World :=
  { mkWorld [mkLobby 1 LobbyState.Waiting, mkLobby 2 LobbyState.Waiting]
      [{ LobbyID := 1, SteamID := "alice", Slot := 0, Ready := false },
       { LobbyID := 2, SteamID := "bob", Slot := 0, Ready := false }] with
    subs := [("c-alice", "1_public"), ("c-alice", "1_private"), ("c-bob", "2_public")] }

/-- Lobby 1 is waiting and nobody is seated. -/
def emptyLobby : World := mkWorld [mkLobby 1 LobbyState.Waiting] []

/-- Lobby 1 is readying up: `alice` has not confirmed, `bob` has, and the
expiry timer is pending. -/
def stalled : World :=
  { mkWorld [mkLobby 1 LobbyState.ReadyingUp]
      [{ LobbyID := 1, SteamID := "alice", Slot := 0, Ready := false },
       { LobbyID := 1, SteamID := "bob", Slot := 1, Ready := true }] with
    timers := [(30, 1)] }

/-- Lobby 1 is in progress with `alice` seated in slot 0 and slot 1 free. -/
def running : World :=
  mkWorld [mkLobby 1 LobbyState.InProgress]
    [{ LobbyID := 1, SteamID := "alice", Slot := 0, Ready := true }]

/-- Lobby 1 is in progress with both seats free. -/
def runningEmpty : World := mkWorld [mkLobby 1 LobbyState.InProgress] []

/-- The world `waitingWorld` with the store refusing `AddSpectator`. -/
def waitingFailing : World := { waitingWorld with failing := [Op.AddSpectator] }

end Sample

namespace Sample

/-- Lobbies 1 and 2 are waiting and empty; `alice` spectates lobby 1 and her
connection is subscribed to its public room. -/
def watching : World :=
  { mkWorld [mkLobby 1 LobbyState.Waiting, mkLobby 2 LobbyState.Waiting] [] with
    spectators := [(1, "alice")], subs := [("c-alice", "1_public")] }

/-- Lobbies 1 and 2 are waiting; `alice` is seated in lobby 1 and already
spectates lobby 2. -/
def seatedWatching : World :=
  { mkWorld [mkLobby 1 LobbyState.Waiting, mkLobby 2 LobbyState.Waiting]
      [{ LobbyID := 1, SteamID := "alice", Slot := 0, Ready := false }] with
    spectators := [(2, "alice")],
    subs := [("c-alice", "1_public"), ("c-alice", "1_private"), ("c-alice", "2_public")] }

/-- A continuation for the handlers whose tail is a parameter: it replies
success and leaves the world as it is. -/
def accept (w : World) : World × Reply := (w, Reply.success)

end Sample

/-! ## Theorems -/

open handler Sample

/-! ### Store lemmas -/

theorem find_map_update (ls : List Lobby) (id : Nat) (f : Lobby → Lobby) (lob : Lobby)
    (hf : ∀ l, l.ID = id → (f l).ID = id)
    (h : ls.find? (fun l => decide (l.ID = id)) = some lob) :
    (ls.map (fun l => if l.ID = id then f l else l)).find? (fun l => decide (l.ID = id)) =
      some (f lob) := by
  induction ls with
  | nil => simp at h
  | cons x xs ih =>
    rw [List.map_cons]
    by_cases hx : x.ID = id
    · rw [List.find?_cons_of_pos _ (by simpa using hx)] at h
      rw [if_pos hx, List.find?_cons_of_pos _ (by simpa using hf x hx)]
      cases h
      rfl
    · rw [List.find?_cons_of_neg _ (by simpa using hx)] at h
      rw [if_neg hx, List.find?_cons_of_neg _ (by simpa using hx)]
      exact ih h

theorem GetLobbyByID_ok (w : World) (id : Nat) (lob : Lobby) :
    GetLobbyByID w id = .ok lob ↔ w.lobbies.find? (fun l => decide (l.ID = id)) = some lob := by
  unfold GetLobbyByID
  cases h : w.lobbies.find? (fun l => decide (l.ID = id)) <;> simp

theorem GetLobbyByID_id (w : World) (id : Nat) (lob : Lobby) (h : GetLobbyByID w id = .ok lob) :
    lob.ID = id := by
  have := List.find?_some ((GetLobbyByID_ok w id lob).1 h)
  simpa using this

theorem AddPlayer_subs (w : World) (lob : Lobby) (p : Player) (slot : Nat) (pw : String) :
    (lob.AddPlayer w p slot pw).1.subs = w.subs := by
  unfold Lobby.AddPlayer
  simp only [World.record]
  split_ifs <;> rfl

theorem AddPlayer_lobbies (w : World) (lob : Lobby) (p : Player) (slot : Nat) (pw : String) :
    (lob.AddPlayer w p slot pw).1.lobbies = w.lobbies := by
  unfold Lobby.AddPlayer
  simp only [World.record]
  split_ifs <;> rfl

theorem AddPlayer_error_slots (w : World) (lob : Lobby) (p : Player) (slot : Nat) (pw : String)
    (e : TPError) (h : (lob.AddPlayer w p slot pw).2 = some e) :
    (lob.AddPlayer w p slot pw).1.slots = w.slots := by
  unfold Lobby.AddPlayer at h ⊢
  simp only [World.record] at h ⊢
  split_ifs at h ⊢ <;> rfl

theorem AddPlayer_error_congr (w w2 : World) (lob : Lobby) (p : Player) (slot : Nat) (pw : String)
    (hf : w2.failing = w.failing) (hs : w2.slots = w.slots) (hb : w2.bans = w.bans) :
    (lob.AddPlayer w2 p slot pw).2 = (lob.AddPlayer w p slot pw).2 := by
  unfold Lobby.AddPlayer
  simp only [World.record, hf, hs, hb]
  split_ifs <;> rfl

theorem AddPlayer_frame (w : World) (lob : Lobby) (p : Player) (slot : Nat) (pw : String) :
    (lob.AddPlayer w p slot pw).1.timers = w.timers ∧ (lob.AddPlayer w p slot pw).1.now = w.now := by
  unfold Lobby.AddPlayer
  simp only [World.record]
  split_ifs <;> exact ⟨rfl, rfl⟩

theorem AfterLobbyJoin_frame (w : World) (so : Client) (lob : Lobby) (p : Player) :
    (chelpers.AfterLobbyJoin w so lob p).lobbies = w.lobbies ∧
    (chelpers.AfterLobbyJoin w so lob p).timers = w.timers ∧
    (chelpers.AfterLobbyJoin w so lob p).now = w.now ∧
    (chelpers.AfterLobbyJoin w so lob p).slots = w.slots := by
  unfold chelpers.AfterLobbyJoin wsevent.AddClient broadcaster.SendMessage
  simp only [World.record]
  split_ifs <;> exact ⟨rfl, rfl, rfl, rfl⟩

/-- A join that replies success went through `AddPlayer` and ends in the tail
of the handler, entered with the lobby rows, timers and clock of the call. -/
theorem LobbyJoin_success_inv (T : SlotTable) (w : World) (so : Client) (a : JoinArgs)
    (lob : Lobby) (hlob : GetLobbyByID w a.Id = .ok lob)
    (hok : (LobbyJoin T w so (.ok a)).2 = Reply.success) :
    ∃ player w3, LobbyJoin T w so (.ok a) = LobbyJoin.afterJoin T w3 lob player ∧
      w3.lobbies = w.lobbies ∧ w3.timers = w.timers ∧ w3.now = w.now := by
  unfold LobbyJoin at hok ⊢
  rcases hp : GetPlayerBySteamID w so.SteamId with e | player
  · simp [hp] at hok
  rcases hb : player.IsBannedWithTime w PlayerBanType.PlayerBanJoin with ⟨b, till⟩
  cases b
  swap
  · simp [hp, hb] at hok
  simp only [hp, hb, hlob] at hok ⊢
  by_cases hst : lob.State = LobbyState.Ended
  · simp [hst] at hok
  rw [if_neg hst] at hok ⊢
  rcases hs : LobbyGetPlayerSlot T lob.Typ a.Team a.Class with e | slot
  · simp [hs] at hok
  simp only [hs] at hok ⊢
  generalize hw1 : (if (player.GetLobbyID w false).1 ≠ 0 ∧
      decide ((player.GetLobbyID w false).2 = none ∧ (player.GetLobbyID w false).1 = a.Id) = false
    then wsevent.RemoveClient (wsevent.RemoveClient w so.Id (publicRoom (player.GetLobbyID w false).1))
      so.Id (privateRoom (player.GetLobbyID w false).1) else w) = w1 at hok ⊢
  have hw1f : w1.lobbies = w.lobbies ∧ w1.timers = w.timers ∧ w1.now = w.now := by
    rw [← hw1]
    split_ifs <;> exact ⟨rfl, rfl, rfl⟩
  rcases hr : lob.AddPlayer w1 player slot a.Password with ⟨w2, r⟩
  have hl2 := AddPlayer_lobbies w1 lob player slot a.Password
  have hf2 := AddPlayer_frame w1 lob player slot a.Password
  rw [hr] at hl2 hf2
  simp only at hl2 hf2
  cases r with
  | some e => simp [hr] at hok
  | none =>
    simp only [hr] at hok ⊢
    refine ⟨player, _, rfl, ?_, ?_, ?_⟩
    · split_ifs
      · rw [(AfterLobbyJoin_frame w2 so lob player).1, hl2, hw1f.1]
      · rw [hl2, hw1f.1]
    · split_ifs
      · rw [(AfterLobbyJoin_frame w2 so lob player).2.1, hf2.1, hw1f.2.1]
      · rw [hf2.1, hw1f.2.1]
    · split_ifs
      · rw [(AfterLobbyJoin_frame w2 so lob player).2.2.1, hf2.2, hw1f.2.2]
      · rw [hf2.2, hw1f.2.2]

theorem find_map_replace (ls : List Lobby) (id : Nat) (lob new : Lobby) (hnew : new.ID = id)
    (h : ls.find? (fun l => decide (l.ID = id)) = some lob) :
    (ls.map (fun l => if l.ID = id then new else l)).find? (fun l => decide (l.ID = id)) =
      some new :=
  find_map_update ls id (fun _ => new) lob (fun _ _ => hnew) h

theorem afterJoin_slots (T : SlotTable) (w : World) (lob : Lobby) (p : Player) :
    (LobbyJoin.afterJoin T w lob p).1.slots = w.slots := by
  unfold LobbyJoin.afterJoin
  simp only [Lobby.Save, BroadcastLobbyList, broadcaster.SendMessageToRoom,
    broadcaster.SendMessage, World.record]
  split_ifs <;> rfl

theorem afterJoin_full (T : SlotTable) (w : World) (lob : Lobby) (p : Player) (id : Nat)
    (hlob : GetLobbyByID w id = .ok lob) (hfull : lob.IsFull T w = true) :
    GetLobbyByID (LobbyJoin.afterJoin T w lob p).1 id =
      .ok { lob with State := LobbyState.ReadyingUp, ReadyUpTimestamp := w.now + 30 } ∧
    (LobbyJoin.afterJoin T w lob p).1.timers = w.timers ++ [(30, id)] := by
  have hid : lob.ID = id := GetLobbyByID_id w id lob hlob
  subst hid
  have hf := find_map_replace w.lobbies lob.ID lob
    { lob with State := LobbyState.ReadyingUp, ReadyUpTimestamp := w.now + 30 } rfl
    ((GetLobbyByID_ok w lob.ID lob).1 hlob)
  unfold LobbyJoin.afterJoin
  simp only [hfull, if_true, Lobby.Save, BroadcastLobbyList, broadcaster.SendMessageToRoom,
    broadcaster.SendMessage, World.record]
  rw [if_neg (by simp)]
  simp only [GetLobbyByID, hf]
  exact ⟨trivial, trivial⟩

theorem afterJoin_notFull (T : SlotTable) (w : World) (lob : Lobby) (p : Player)
    (hfull : lob.IsFull T w = false) :
    (LobbyJoin.afterJoin T w lob p).1.lobbies = w.lobbies ∧
    (LobbyJoin.afterJoin T w lob p).1.timers = w.timers := by
  unfold LobbyJoin.afterJoin
  simp only [hfull, Bool.false_eq_true, if_false, broadcaster.SendMessage, World.record]
  split_ifs <;> exact ⟨rfl, rfl⟩

theorem IsFull_congr (T : SlotTable) (w w2 : World) (lob : Lobby) (h : w2.slots = w.slots) :
    lob.IsFull T w2 = lob.IsFull T w := by
  unfold Lobby.IsFull
  rw [h]

/-! ### C1: kick and ban authorization -/

/-- C1. With the lobby and the acting player on record and a target other than
the acting player: when the acting player is neither the creator of the lobby
nor an administrator, `LobbyKick` and `LobbyBan` both return the error
"Not authorized to kick players" and hand back the world they were given, log,
store and subscriptions untouched; and `playerCanKick` answers `(true, nil)`
whenever the acting player is the creator or an administrator. -/
theorem kick_ban_authorization (w : World) (so : Client) (a : KickArgs) (lob : Lobby)
    (player : Player) (hlob : GetLobbyByID w a.Id = .ok lob)
    (hpl : GetPlayerBySteamID w so.SteamId = .ok player) :
    (a.Steamid ≠ so.SteamId → so.SteamId ≠ lob.CreatedBySteamID → player.Role ≠ Role.Admin →
      LobbyKick w so (.ok a) = (w, Reply.error (NewTPError "Not authorized to kick players" 1)) ∧
      LobbyBan w so (.ok a) = (w, Reply.error (NewTPError "Not authorized to kick players" 1))) ∧
    ((so.SteamId = lob.CreatedBySteamID ∨ player.Role = Role.Admin) →
      playerCanKick w a.Id so.SteamId = (true, none)) := by
  refine ⟨fun hne hcr hrole => ?_, fun hauth => ?_⟩
  · have hk : playerCanKick w a.Id so.SteamId =
        (false, some (NewTPError "Not authorized to kick players" 1)) := by
      simp [playerCanKick, hlob, hpl, hcr, hrole]
    simp [LobbyKick, LobbyBan, hne, hk, replyOf]
  · rcases hauth with h | h
    · simp only [playerCanKick, hlob, hpl]
      simp [h]
    · simp only [playerCanKick, hlob, hpl]
      simp [h]

/-- Witness for C1: `bob` may not kick `alice` from the lobby of `owner`, and
`owner` may. -/
theorem kick_ban_authorization_witness :
    (LobbyKick waitingWorld bobConn (.ok ⟨1, "alice"⟩) =
        (waitingWorld, Reply.error (NewTPError "Not authorized to kick players" 1)) ∧
      LobbyBan waitingWorld bobConn (.ok ⟨1, "alice"⟩) =
        (waitingWorld, Reply.error (NewTPError "Not authorized to kick players" 1))) ∧
    playerCanKick waitingWorld 1 "owner" = (true, none) :=
  ⟨(kick_ban_authorization waitingWorld bobConn ⟨1, "alice"⟩ (mkLobby 1 LobbyState.Waiting)
      (mkPlayer "bob" Role.Normal) rfl rfl).1 (by decide) (by decide) (by decide),
   (kick_ban_authorization waitingWorld ownerConn ⟨1, "alice"⟩ (mkLobby 1 LobbyState.Waiting)
      (mkPlayer "owner" Role.Normal) rfl rfl).2 (Or.inl (by decide))⟩

/-! ### C2: the expiry callback on a lobby that moved on -/

/-- On a lobby in progress the expiry callback changes nothing. -/
theorem expireReadyUp_inProgress (w : World) (lobID : Nat) (lobby : Lobby)
    (hfind : w.lobbies.find? (fun l => decide (l.ID = lobID)) = some lobby)
    (hst : lobby.State = LobbyState.InProgress) : expireReadyUp w lobID = some w := by
  simp [expireReadyUp, hfind, hst]

/-- C2. The callback armed when lobby 1 filled up fires after the creator has
closed the lobby: the timer is still pending, the lobby is `Ended` before the
callback and `Waiting` after it. -/
theorem expireReadyUp_reopens_ended_lobby :
    closedWorld.timers = [(30, 1)] ∧
    (GetLobbyByID closedWorld 1).toOption.map (fun l => l.State) = some LobbyState.Ended ∧
    ((expireReadyUp closedWorld 1).bind (fun w => (GetLobbyByID w 1).toOption)).map
      (fun l => l.State) = some LobbyState.Waiting := by
  decide


/-! ### C3: a failed join while seated elsewhere -/

/-- Counterexample to C3: `alice`, seated in lobby 1 and subscribed to both of
its rooms, asks for the seat `bob` holds in lobby 2.  `AddPlayer` fails, she
still holds her seat in lobby 1, and her connection has lost both rooms. -/
theorem LobbyJoin_failure_drops_previous_rooms :
    (LobbyJoin table twoLobbies aliceConn (.ok ⟨2, "scout1", "red", ""⟩)).2 =
      Reply.error errSlotOccupied ∧
    (Player.GetLobbyID (LobbyJoin table twoLobbies aliceConn (.ok ⟨2, "scout1", "red", ""⟩)).1
      (mkPlayer "alice" Role.Normal) false).1 = 1 ∧
    ("c-alice", publicRoom 1) ∈ twoLobbies.subs ∧
    ("c-alice", privateRoom 1) ∈ twoLobbies.subs ∧
    ("c-alice", publicRoom 1) ∉
      (LobbyJoin table twoLobbies aliceConn (.ok ⟨2, "scout1", "red", ""⟩)).1.subs ∧
    ("c-alice", privateRoom 1) ∉
      (LobbyJoin table twoLobbies aliceConn (.ok ⟨2, "scout1", "red", ""⟩)).1.subs := by
  decide

/-- C3, amended. When the player is seated in a different lobby `prevId` and
`AddPlayer` fails, `LobbyJoin` returns that error with the connection already
unsubscribed from the public and the private room of `prevId`: the
subscriptions after the call are those before it without these two, while slot
rows and lobby rows are as before, so the player is still seated in `prevId`. -/
theorem LobbyJoin_addPlayer_error (T : SlotTable) (w : World) (so : Client) (a : JoinArgs)
    (player : Player) (lob : Lobby) (slot prevId : Nat) (e : TPError)
    (hpl : GetPlayerBySteamID w so.SteamId = .ok player)
    (hban : (player.IsBannedWithTime w PlayerBanType.PlayerBanJoin).1 = false)
    (hlob : GetLobbyByID w a.Id = .ok lob)
    (hst : lob.State ≠ LobbyState.Ended)
    (hslot : LobbyGetPlayerSlot T lob.Typ a.Team a.Class = .ok slot)
    (hprev : player.GetLobbyID w false = (prevId, none))
    (h0 : prevId ≠ 0) (hdiff : prevId ≠ a.Id)
    (hadd : (lob.AddPlayer w player slot a.Password).2 = some e) :
    (LobbyJoin T w so (.ok a)).2 = Reply.error e ∧
    (LobbyJoin T w so (.ok a)).1.subs =
      w.subs.filter (fun s => decide (s ≠ (so.Id, publicRoom prevId) ∧ s ≠ (so.Id, privateRoom prevId))) ∧
    (LobbyJoin T w so (.ok a)).1.slots = w.slots ∧
    (LobbyJoin T w so (.ok a)).1.lobbies = w.lobbies := by
  rcases hb : player.IsBannedWithTime w PlayerBanType.PlayerBanJoin with ⟨b, till⟩
  rw [hb] at hban
  simp only at hban
  subst hban
  set w1 := wsevent.RemoveClient (wsevent.RemoveClient w so.Id (publicRoom prevId)) so.Id
    (privateRoom prevId) with hw1
  have hadd1 : (lob.AddPlayer w1 player slot a.Password).2 = some e := by
    rw [AddPlayer_error_congr w w1 lob player slot a.Password rfl rfl rfl]
    exact hadd
  have hjoin : LobbyJoin T w so (.ok a) =
      ((lob.AddPlayer w1 player slot a.Password).1, Reply.error e) := by
    rcases hr : lob.AddPlayer w1 player slot a.Password with ⟨w2, r⟩
    rw [hr] at hadd1
    simp only at hadd1
    subst hadd1
    simp [LobbyJoin, hpl, hb, hlob, hst, hslot, hprev, h0, hdiff, ← hw1, hr]
  rw [hjoin]
  refine ⟨rfl, ?_, ?_, ?_⟩
  · simp only [AddPlayer_subs]
    simp only [hw1, wsevent.RemoveClient, World.record, List.filter_filter]
    congr 1
    funext s
    simp [and_comm]
  · rw [AddPlayer_error_slots _ _ _ _ _ e hadd1]
    rfl
  · rw [AddPlayer_lobbies]
    rfl

/-- Witness for C3, amended: the failed join of `alice` into lobby 2. -/
theorem LobbyJoin_addPlayer_error_witness :
    (LobbyJoin table twoLobbies aliceConn (.ok ⟨2, "scout1", "red", ""⟩)).2 =
      Reply.error errSlotOccupied ∧
    (LobbyJoin table twoLobbies aliceConn (.ok ⟨2, "scout1", "red", ""⟩)).1.subs =
      twoLobbies.subs.filter
        (fun s => decide (s ≠ ("c-alice", publicRoom 1) ∧ s ≠ ("c-alice", privateRoom 1))) ∧
    (LobbyJoin table twoLobbies aliceConn (.ok ⟨2, "scout1", "red", ""⟩)).1.slots =
      twoLobbies.slots ∧
    (LobbyJoin table twoLobbies aliceConn (.ok ⟨2, "scout1", "red", ""⟩)).1.lobbies =
      twoLobbies.lobbies :=
  LobbyJoin_addPlayer_error table twoLobbies aliceConn ⟨2, "scout1", "red", ""⟩
    (mkPlayer "alice" Role.Normal) (mkLobby 2 LobbyState.Waiting) 0 1 errSlotOccupied
    rfl rfl rfl (by decide) rfl rfl (by decide) (by decide) rfl

/-! ### C4: the order of the checks in `LobbyClose` -/

/-- C4. On an existing lobby, with the acting player on record, `LobbyClose`
decides in this order: a player who is neither creator nor administrator gets
the not-authorized error and the world is untouched; otherwise an `Ended` lobby
gives "Lobby already closed." and the world is untouched; otherwise the reply
is success, the log grows by exactly one `Close` call (between the fumble call
and the two broadcasts), the lobby is `Ended` afterwards, and closing again
fails with "Lobby already closed.". -/
theorem LobbyClose_order (w : World) (so : Client) (a : IdArgs) (lob : Lobby) (player : Player)
    (hlob : GetLobbyByIdServer w a.Id = .ok lob)
    (hpl : GetPlayerBySteamID w so.SteamId = .ok player) :
    ((player.SteamID ≠ lob.CreatedBySteamID ∧ player.Role ≠ Role.Admin) →
      LobbyClose w so (.ok a) =
        (w, Reply.error (NewTPError "Player not authorized to close lobby." (-1)))) ∧
    (¬ (player.SteamID ≠ lob.CreatedBySteamID ∧ player.Role ≠ Role.Admin) →
      lob.State = LobbyState.Ended →
      LobbyClose w so (.ok a) = (w, Reply.error (NewTPError "Lobby already closed." (-1)))) ∧
    (¬ (player.SteamID ≠ lob.CreatedBySteamID ∧ player.Role ≠ Role.Admin) →
      lob.State ≠ LobbyState.Ended →
      (LobbyClose w so (.ok a)).2 = Reply.success ∧
      (LobbyClose w so (.ok a)).1.log = w.log ++
        [Effect.FumbleLobbyEnded lob.ID, Effect.Close lob.ID, Effect.BroadcastLobbyList,
         Effect.SendNotification ("Lobby closed by " ++ player.Name) lob.ID] ∧
      GetLobbyByIdServer (LobbyClose w so (.ok a)).1 a.Id =
        .ok { lob with State := LobbyState.Ended } ∧
      LobbyClose (LobbyClose w so (.ok a)).1 so (.ok a) =
        ((LobbyClose w so (.ok a)).1, Reply.error (NewTPError "Lobby already closed." (-1)))) := by
  refine ⟨fun hno => ?_, fun hyes hst => ?_, fun hyes hst => ?_⟩
  · simp [LobbyClose, hlob, hpl, Except.toOption, hno]
  · simp only [LobbyClose, hlob, hpl, Except.toOption]
    rw [if_neg hyes, if_pos hst]
  · have hid : lob.ID = a.Id := GetLobbyByID_id w a.Id lob hlob
    have h1 : LobbyClose w so (.ok a) =
        (SendNotification (BroadcastLobbyList (lob.Close (FumbleLobbyEnded w lob) true))
          ("Lobby closed by " ++ player.Name) lob.ID, Reply.success) := by
      simp only [LobbyClose, hlob, hpl, Except.toOption]
      rw [if_neg hyes, if_neg hst]
    have hlob2 : GetLobbyByIdServer (LobbyClose w so (.ok a)).1 a.Id =
        .ok { lob with State := LobbyState.Ended } := by
      rw [h1]
      have hf := find_map_update w.lobbies a.Id (fun l => { l with State := LobbyState.Ended }) lob
        (fun _ h => h) ((GetLobbyByID_ok w a.Id lob).1 hlob)
      simp only [GetLobbyByIdServer, GetLobbyByID, SendNotification, BroadcastLobbyList,
        Lobby.Close, FumbleLobbyEnded, World.record, hid, hf]
    have hpl2 : GetPlayerBySteamID (LobbyClose w so (.ok a)).1 so.SteamId = .ok player := by
      rw [h1]
      exact hpl
    refine ⟨by rw [h1], ?_, hlob2, ?_⟩
    · rw [h1]
      simp [SendNotification, BroadcastLobbyList, Lobby.Close, FumbleLobbyEnded, World.record]
    · generalize (LobbyClose w so (.ok a)).1 = w2 at hlob2 hpl2
      simp only [LobbyClose, hlob2, hpl2, Except.toOption]
      rw [if_neg hyes]
      simp

/-- Witness for C4: `bob` may not close lobby 1; `owner` closes it once and is
refused the second time. -/
theorem LobbyClose_order_witness :
    LobbyClose waitingWorld bobConn (.ok ⟨1⟩) =
      (waitingWorld, Reply.error (NewTPError "Player not authorized to close lobby." (-1))) ∧
    (LobbyClose waitingWorld ownerConn (.ok ⟨1⟩)).2 = Reply.success ∧
    LobbyClose (LobbyClose waitingWorld ownerConn (.ok ⟨1⟩)).1 ownerConn (.ok ⟨1⟩) =
      ((LobbyClose waitingWorld ownerConn (.ok ⟨1⟩)).1,
        Reply.error (NewTPError "Lobby already closed." (-1))) :=
  ⟨(LobbyClose_order waitingWorld bobConn ⟨1⟩ (mkLobby 1 LobbyState.Waiting)
      (mkPlayer "bob" Role.Normal) rfl rfl).1 (by decide),
   ((LobbyClose_order waitingWorld ownerConn ⟨1⟩ (mkLobby 1 LobbyState.Waiting)
      (mkPlayer "owner" Role.Normal) rfl rfl).2.2 (by decide) (by decide)).1,
   ((LobbyClose_order waitingWorld ownerConn ⟨1⟩ (mkLobby 1 LobbyState.Waiting)
      (mkPlayer "owner" Role.Normal) rfl rfl).2.2 (by decide) (by decide)).2.2.2⟩

/-! ### C5: filling the lobby arms the ready-up timer -/

/-- C5. For every `LobbyJoin` that replies success (so `AddPlayer` returned no
error): when the lobby is full afterwards, its stored row is the row loaded by
the handler with state `ReadyingUp` and `ReadyUpTimestamp` equal to the current
unix time plus 30, and the armed timers are those before the call followed by
exactly one new timer of 30 seconds for this lobby; when the lobby is not full
afterwards, the stored row is unchanged (state and timestamp included) and no
timer has been armed. -/
theorem LobbyJoin_ready_up (T : SlotTable) (w : World) (so : Client) (a : JoinArgs)
    (lob : Lobby) (hlob : GetLobbyByID w a.Id = .ok lob)
    (hok : (LobbyJoin T w so (.ok a)).2 = Reply.success) :
    (lob.IsFull T (LobbyJoin T w so (.ok a)).1 = true →
      GetLobbyByID (LobbyJoin T w so (.ok a)).1 a.Id =
        .ok { lob with State := LobbyState.ReadyingUp, ReadyUpTimestamp := w.now + 30 } ∧
      (LobbyJoin T w so (.ok a)).1.timers = w.timers ++ [(30, a.Id)]) ∧
    (lob.IsFull T (LobbyJoin T w so (.ok a)).1 = false →
      GetLobbyByID (LobbyJoin T w so (.ok a)).1 a.Id = .ok lob ∧
      (LobbyJoin T w so (.ok a)).1.timers = w.timers) := by
  obtain ⟨player, w3, hjoin, hl3, ht3, hn3⟩ := LobbyJoin_success_inv T w so a lob hlob hok
  have hlob3 : GetLobbyByID w3 a.Id = .ok lob := by
    rw [← hlob]
    simp only [GetLobbyByID, hl3]
  rw [hjoin, IsFull_congr T w3 _ lob (afterJoin_slots T w3 lob player)]
  refine ⟨fun hfull => ?_, fun hfull => ?_⟩
  · have := afterJoin_full T w3 lob player a.Id hlob3 hfull
    rw [hn3, ht3] at this
    exact this
  · have := afterJoin_notFull T w3 lob player hfull
    refine ⟨?_, by rw [this.2, ht3]⟩
    rw [← hlob]
    simp only [GetLobbyByID, this.1, hl3]

/-- Witness for C5: `bob` fills lobby 1, and `alice` takes the first of two
seats of an empty lobby. -/
theorem LobbyJoin_ready_up_witness :
    (GetLobbyByID (LobbyJoin table waitingWorld bobConn (.ok ⟨1, "scout1", "blu", ""⟩)).1 1 =
        .ok { mkLobby 1 LobbyState.Waiting with
          State := LobbyState.ReadyingUp, ReadyUpTimestamp := waitingWorld.now + 30 } ∧
      (LobbyJoin table waitingWorld bobConn (.ok ⟨1, "scout1", "blu", ""⟩)).1.timers =
        waitingWorld.timers ++ [(30, 1)]) ∧
    (GetLobbyByID (LobbyJoin table emptyLobby aliceConn (.ok ⟨1, "scout1", "red", ""⟩)).1 1 =
        .ok (mkLobby 1 LobbyState.Waiting) ∧
      (LobbyJoin table emptyLobby aliceConn (.ok ⟨1, "scout1", "red", ""⟩)).1.timers =
        emptyLobby.timers) :=
  ⟨(LobbyJoin_ready_up table waitingWorld bobConn ⟨1, "scout1", "blu", ""⟩
      (mkLobby 1 LobbyState.Waiting) rfl (by decide)).1 (by decide),
   (LobbyJoin_ready_up table emptyLobby aliceConn ⟨1, "scout1", "red", ""⟩
      (mkLobby 1 LobbyState.Waiting) rfl (by decide)).2 (by decide)⟩

/-! ### C6: the expiry callback on a lobby still readying up -/

/-- C6. When the callback fires on a lobby still `ReadyingUp` it returns, and
the stored lobby is the loaded row with state `Waiting`; this holds even when
`RemoveUnreadyPlayers` or `UnreadyAllPlayers` reports an error, which the
callback only logs (the result of the final `Save` is discarded by the source
and the write is taken to succeed).  When `RemoveUnreadyPlayers` reports no
error, every occupant left in the lobby had confirmed readiness and every
occupant that had confirmed keeps its slot; when `UnreadyAllPlayers` reports no
error, every occupant left is marked not ready. -/
theorem expireReadyUp_readyingUp (w : World) (lobID : Nat) (lobby : Lobby)
    (hlob : GetLobbyByID w lobID = .ok lobby) (hst : lobby.State = LobbyState.ReadyingUp) :
    ∃ w2, expireReadyUp w lobID = some w2 ∧
      GetLobbyByID w2 lobID = .ok { lobby with State := LobbyState.Waiting } ∧
      (Op.RemoveUnreadyPlayers ∉ w.failing →
        (∀ s ∈ w2.slots, s.LobbyID = lobID → { s with Ready := true } ∈ w.slots) ∧
        (∀ s ∈ w.slots, s.LobbyID = lobID → s.Ready = true →
          ∃ s2 ∈ w2.slots, s2.LobbyID = lobID ∧ s2.SteamID = s.SteamID ∧ s2.Slot = s.Slot)) ∧
      (Op.UnreadyAllPlayers ∉ w.failing →
        ∀ s ∈ w2.slots, s.LobbyID = lobID → s.Ready = false) := by
  have hid : lobby.ID = lobID := GetLobbyByID_id w lobID lobby hlob
  subst hid
  have hfind := (GetLobbyByID_ok w lobby.ID lobby).1 hlob
  have hrep := find_map_replace w.lobbies lobby.ID lobby
    { lobby with State := LobbyState.Waiting } rfl hfind
  by_cases h1 : Op.RemoveUnreadyPlayers ∈ w.failing <;>
  by_cases h2 : Op.UnreadyAllPlayers ∈ w.failing
  all_goals
    refine ⟨_, by simp [expireReadyUp, hfind, hst, Lobby.RemoveUnreadyPlayers,
      Lobby.UnreadyAllPlayers, Lobby.Save, World.record, h1, h2]; rfl, ?_, ?_, ?_⟩
  all_goals first
    | (simp only [GetLobbyByID, hrep]; done)
    | (intro hno; exact absurd ‹_› hno)
    | skip
  · -- removal failed, un-readying succeeded
    intro _ s hs hid
    simp only [List.mem_map] at hs
    obtain ⟨t, _, rfl⟩ := hs
    split_ifs at hid ⊢ with ht
    · rfl
    · exact absurd hid ht
  · -- removal succeeded, un-readying failed
    intro _
    simp only [List.mem_filter, Bool.or_eq_true, Bool.not_eq_true', decide_eq_false_iff_not]
    refine ⟨?_, ?_⟩
    · rintro ⟨a, b, c, d⟩ ⟨hs, hk⟩ hid
      rcases hk with hk | hk
      · exact absurd hid hk
      · simp only at hk
        subst hk
        exact hs
    · intro s hs hid hr
      exact ⟨s, ⟨hs, Or.inr hr⟩, hid, rfl, rfl⟩
  · -- both succeeded: occupants
    intro _
    simp only [List.mem_map, List.mem_filter, Bool.or_eq_true, Bool.not_eq_true',
      decide_eq_false_iff_not]
    refine ⟨?_, ?_⟩
    · rintro s ⟨⟨a, b, c, d⟩, ⟨ht, hk⟩, rfl⟩ hid
      split_ifs at hid ⊢ with hc
      · rcases hk with hk | hk
        · exact absurd hc hk
        · simp only at hk
          subst hk
          exact ht
      · exact absurd hid hc
    · intro s hs hid hr
      refine ⟨_, ⟨s, ⟨hs, Or.inr hr⟩, rfl⟩, ?_⟩
      rw [if_pos hid]
      exact ⟨hid, rfl, rfl⟩
  · -- both succeeded: readiness
    intro _ s hs hid
    simp only [List.mem_map] at hs
    obtain ⟨t, _, rfl⟩ := hs
    split_ifs at hid ⊢ with ht
    · rfl
    · exact absurd hid ht

/-- Witness for C6: with a working store the callback leaves lobby 1 waiting,
every occupant left had confirmed, and every one of them is marked not ready. -/
theorem expireReadyUp_readyingUp_witness :
    ∃ w2, expireReadyUp stalled 1 = some w2 ∧
      GetLobbyByID w2 1 = .ok (mkLobby 1 LobbyState.Waiting) ∧
      (∀ s ∈ w2.slots, s.LobbyID = 1 → { s with Ready := true } ∈ stalled.slots) ∧
      (∀ s ∈ w2.slots, s.LobbyID = 1 → s.Ready = false) :=
  match expireReadyUp_readyingUp stalled 1 (mkLobby 1 LobbyState.ReadyingUp) rfl rfl with
  | ⟨w2, h, hl, hr, hu⟩ => ⟨w2, h, hl, (hr (by decide)).1, hu (by decide)⟩

/-! ### C7: operations on a closed lobby -/

/-- What `removePlayerFromLobby` does on a closed lobby. -/
theorem removePlayerFromLobby_ended (w : World) (id : Nat) (lob : Lobby) (steamId : String)
    (hlob : GetLobbyByID w id = .ok lob) (hst : lob.State = LobbyState.Ended) :
    (∀ p, GetPlayerBySteamID w steamId = .ok p →
      removePlayerFromLobby w id steamId =
        (w, some lob, some p, some (NewTPError "Lobby has closed." 1))) ∧
    ∃ l p e, removePlayerFromLobby w id steamId = (w, l, p, some e) := by
  unfold removePlayerFromLobby
  rcases hp : GetPlayerBySteamID w steamId with e | p
  · exact ⟨fun p h => (by cases h), none, none, e, rfl⟩
  · simp only [hlob, hst]
    refine ⟨fun q h => ?_, _, _, _, rfl⟩
    cases h
    rfl

/-- Counterexample to C7: on the closed lobby 1 a join is refused with code -1,
a leave with code 1 and another message, and the kick of an unauthorized actor
with the not-authorized error. -/
theorem ended_lobby_errors_differ :
    (GetLobbyByID closedWorld 1).toOption.map (fun l => l.State) = some LobbyState.Ended ∧
    LobbyJoin table closedWorld aliceConn (.ok ⟨1, "scout1", "red", ""⟩) =
      (closedWorld, Reply.error (NewTPError "Cannot join a closed lobby." (-1))) ∧
    LobbyLeave closedWorld aliceConn (.ok ⟨1⟩) =
      (closedWorld, Reply.error (NewTPError "Lobby has closed." 1)) ∧
    LobbyKick closedWorld bobConn (.ok ⟨1, "alice"⟩) =
      (closedWorld, Reply.error (NewTPError "Not authorized to kick players" 1)) ∧
    (NewTPError "Cannot join a closed lobby." (-1)).Code ≠ (NewTPError "Lobby has closed." 1).Code := by
  decide

/-- C7, amended. On a lobby in state `Ended` every slot-affecting handler
replies with an error and hands back the world it was given.  The error depends
on the handler: `LobbyJoin` by a recorded player without a join ban replies
"Cannot join a closed lobby." with code -1; `LobbyLeave` by a recorded player,
and `LobbyKick` and `LobbyBan` by an authorized actor on a recorded target other
than the actor, reply "Lobby has closed." with code 1. -/
theorem ended_lobby_rejects (T : SlotTable) (w : World) (id : Nat) (lob : Lobby)
    (hlob : GetLobbyByID w id = .ok lob) (hst : lob.State = LobbyState.Ended) :
    (∀ so (a : JoinArgs) p, a.Id = id → GetPlayerBySteamID w so.SteamId = .ok p →
      (∃ e, LobbyJoin T w so (.ok a) = (w, Reply.error e)) ∧
      ((p.IsBannedWithTime w PlayerBanType.PlayerBanJoin).1 = false →
        LobbyJoin T w so (.ok a) =
          (w, Reply.error (NewTPError "Cannot join a closed lobby." (-1))))) ∧
    (∀ so, (∃ e, LobbyLeave w so (.ok ⟨id⟩) = (w, Reply.error e)) ∧
      (∀ p, GetPlayerBySteamID w so.SteamId = .ok p →
        LobbyLeave w so (.ok ⟨id⟩) = (w, Reply.error (NewTPError "Lobby has closed." 1)))) ∧
    (∀ so (a : KickArgs), a.Id = id →
      (∃ e, LobbyKick w so (.ok a) = (w, Reply.error e)) ∧
      (∃ e, LobbyBan w so (.ok a) = (w, Reply.error e)) ∧
      (∀ target, a.Steamid ≠ so.SteamId → playerCanKick w id so.SteamId = (true, none) →
        GetPlayerBySteamID w a.Steamid = .ok target →
        LobbyKick w so (.ok a) = (w, Reply.error (NewTPError "Lobby has closed." 1)) ∧
        LobbyBan w so (.ok a) = (w, Reply.error (NewTPError "Lobby has closed." 1)))) := by
  refine ⟨?_, ?_, ?_⟩
  · intro so a p ha hp
    subst ha
    rcases hb : p.IsBannedWithTime w PlayerBanType.PlayerBanJoin with ⟨b, till⟩
    cases b
    · have h : LobbyJoin T w so (.ok a) =
          (w, Reply.error (NewTPError "Cannot join a closed lobby." (-1))) := by
        simp [LobbyJoin, hp, hb, hlob, hst]
      exact ⟨⟨_, h⟩, fun _ => h⟩
    · refine ⟨⟨_, by simp only [LobbyJoin, hp, hb]; rfl⟩, fun h => by simp at h⟩
  · intro so
    obtain ⟨hspec, l, p, e, hgen⟩ := removePlayerFromLobby_ended w id lob so.SteamId hlob hst
    refine ⟨⟨e, by simp only [LobbyLeave, hgen]⟩, fun p hp => ?_⟩
    simp only [LobbyLeave, hspec p hp]
  · intro so a ha
    subst ha
    obtain ⟨hspec, l, p, e, hgen⟩ := removePlayerFromLobby_ended w a.Id lob a.Steamid hlob hst
    have hck : ∀ b r, playerCanKick w a.Id so.SteamId = (b, r) → b = false → ∃ e, r = some e := by
      intro b r h hbf
      subst hbf
      unfold playerCanKick at h
      simp only [hlob] at h
      rcases hq : GetPlayerBySteamID w so.SteamId with e | q
      · simp only [hq] at h
        cases h
        exact ⟨_, rfl⟩
      · simp only [hq] at h
        split_ifs at h <;> cases h
        exact ⟨_, rfl⟩
    by_cases hself : a.Steamid = so.SteamId
    · refine ⟨⟨_, by simp only [LobbyKick, hself, if_true]; rfl⟩,
        ⟨_, by simp only [LobbyBan, hself, if_true]; rfl⟩, fun _ h => absurd hself h⟩
    · rcases hk : playerCanKick w a.Id so.SteamId with ⟨b, r⟩
      cases b
      · obtain ⟨e2, rfl⟩ := hck _ _ hk rfl
        refine ⟨⟨e2, by simp only [LobbyKick, hself, if_false, hk, replyOf]⟩,
          ⟨e2, by simp only [LobbyBan, hself, if_false, hk, replyOf]⟩, fun _ _ h => by cases h⟩
      · refine ⟨⟨e, by simp only [LobbyKick, hself, if_false, hk, hgen]⟩,
          ⟨e, by simp only [LobbyBan, hself, if_false, hk, hgen]⟩, fun t _ _ ht => ?_⟩
        simp only [LobbyKick, LobbyBan, hself, if_false, hk, hspec t ht]
        exact ⟨trivial, trivial⟩

/-- Witness for C7, amended: join, leave and an authorized kick on the closed
lobby 1. -/
theorem ended_lobby_rejects_witness :
    LobbyJoin table closedWorld aliceConn (.ok ⟨1, "scout1", "red", ""⟩) =
      (closedWorld, Reply.error (NewTPError "Cannot join a closed lobby." (-1))) ∧
    LobbyLeave closedWorld aliceConn (.ok ⟨1⟩) =
      (closedWorld, Reply.error (NewTPError "Lobby has closed." 1)) ∧
    LobbyKick closedWorld ownerConn (.ok ⟨1, "alice"⟩) =
      (closedWorld, Reply.error (NewTPError "Lobby has closed." 1)) :=
  have h := ended_lobby_rejects table closedWorld 1
    { mkLobby 1 LobbyState.Ended with ReadyUpTimestamp := 1030 } rfl rfl
  ⟨(h.1 aliceConn ⟨1, "scout1", "red", ""⟩ (mkPlayer "alice" Role.Normal) rfl rfl).2 rfl,
   (h.2.1 aliceConn).2 (mkPlayer "alice" Role.Normal) rfl,
   ((h.2.2 ownerConn ⟨1, "alice"⟩ rfl).2.2 (mkPlayer "alice" Role.Normal)
      (by decide) rfl rfl).1⟩

/-! ### C8: operations on a lobby in progress -/

/-- What `removePlayerFromLobby` does on a lobby in progress. -/
theorem removePlayerFromLobby_inProgress (w : World) (id : Nat) (lob : Lobby) (steamId : String)
    (hlob : GetLobbyByID w id = .ok lob) (hst : lob.State = LobbyState.InProgress) :
    (∀ p, GetPlayerBySteamID w steamId = .ok p →
      removePlayerFromLobby w id steamId =
        (w, some lob, some p, some (NewTPError "Lobby is in progress." 1))) ∧
    ∃ l p e, removePlayerFromLobby w id steamId = (w, l, p, some e) := by
  unfold removePlayerFromLobby
  rcases hp : GetPlayerBySteamID w steamId with e | p
  · exact ⟨fun p h => (by cases h), none, none, e, rfl⟩
  · simp only [hlob, hst]
    refine ⟨fun q h => ?_, _, _, _, rfl⟩
    cases h
    rfl

theorem AddPlayer_log (w : World) (lob : Lobby) (p : Player) (slot : Nat) (pw : String) :
    (lob.AddPlayer w p slot pw).1.log = w.log ++ [Effect.AddPlayer lob.ID p.SteamID slot] := by
  unfold Lobby.AddPlayer
  simp only [World.record]
  split_ifs <;> rfl

theorem AfterLobbyJoin_log (w : World) (so : Client) (lob : Lobby) (p : Player) :
    ∀ e ∈ w.log, e ∈ (chelpers.AfterLobbyJoin w so lob p).log := by
  intro e he
  unfold chelpers.AfterLobbyJoin wsevent.AddClient broadcaster.SendMessage
  simp only [World.record]
  split_ifs <;> simp [he]

theorem afterJoin_log (T : SlotTable) (w : World) (lob : Lobby) (p : Player) :
    ∀ e ∈ w.log, e ∈ (LobbyJoin.afterJoin T w lob p).1.log := by
  intro e he
  unfold LobbyJoin.afterJoin
  simp only [Lobby.Save, BroadcastLobbyList, broadcaster.SendMessageToRoom,
    broadcaster.SendMessage, World.record]
  split_ifs <;> simp [he]

theorem afterJoin_inProgress_notFull (T : SlotTable) (w : World) (lob : Lobby) (p : Player)
    (hst : lob.State = LobbyState.InProgress) (hfull : lob.IsFull T w = false) :
    LobbyJoin.afterJoin T w lob p =
      (broadcaster.SendMessage w p.SteamID "lobbyStart", Reply.success) := by
  unfold LobbyJoin.afterJoin
  simp only [hfull, Bool.false_eq_true, if_false, hst, if_true]

/-- The shape of `LobbyJoin` once the checks that precede `AddPlayer` passed. -/
theorem LobbyJoin_reaches_AddPlayer (T : SlotTable) (w : World) (so : Client) (a : JoinArgs)
    (player : Player) (lob : Lobby) (slot : Nat)
    (hpl : GetPlayerBySteamID w so.SteamId = .ok player)
    (hban : (player.IsBannedWithTime w PlayerBanType.PlayerBanJoin).1 = false)
    (hlob : GetLobbyByID w a.Id = .ok lob)
    (hst : lob.State ≠ LobbyState.Ended)
    (hslot : LobbyGetPlayerSlot T lob.Typ a.Team a.Class = .ok slot) :
    ∃ w1, w1.lobbies = w.lobbies ∧ w1.slots = w.slots ∧
      ((∃ e, (lob.AddPlayer w1 player slot a.Password).2 = some e ∧
          LobbyJoin T w so (.ok a) = ((lob.AddPlayer w1 player slot a.Password).1, Reply.error e)) ∨
       (∃ w3, (lob.AddPlayer w1 player slot a.Password).2 = none ∧
          (∀ e ∈ (lob.AddPlayer w1 player slot a.Password).1.log, e ∈ w3.log) ∧
          w3.lobbies = w.lobbies ∧
          LobbyJoin T w so (.ok a) = LobbyJoin.afterJoin T w3 lob player)) := by
  rcases hb : player.IsBannedWithTime w PlayerBanType.PlayerBanJoin with ⟨b, till⟩
  rw [hb] at hban
  simp only at hban
  subst hban
  unfold LobbyJoin
  simp only [hpl, hb, hlob, if_neg hst, hslot]
  generalize hw1 : (if (player.GetLobbyID w false).1 ≠ 0 ∧
      decide ((player.GetLobbyID w false).2 = none ∧ (player.GetLobbyID w false).1 = a.Id) = false
    then wsevent.RemoveClient (wsevent.RemoveClient w so.Id (publicRoom (player.GetLobbyID w false).1))
      so.Id (privateRoom (player.GetLobbyID w false).1) else w) = w1
  have hw1f : w1.lobbies = w.lobbies ∧ w1.slots = w.slots := by
    rw [← hw1]
    split_ifs <;> exact ⟨rfl, rfl⟩
  refine ⟨w1, hw1f.1, hw1f.2, ?_⟩
  have hl2 := AddPlayer_lobbies w1 lob player slot a.Password
  rcases hr : lob.AddPlayer w1 player slot a.Password with ⟨w2, r⟩
  rw [hr] at hl2
  simp only at hl2
  cases r with
  | some e => exact Or.inl ⟨e, rfl, rfl⟩
  | none =>
    refine Or.inr ⟨_, rfl, ?_, ?_, rfl⟩
    · intro e he
      split_ifs
      · exact AfterLobbyJoin_log w2 so lob player e he
      · exact he
    · split_ifs
      · rw [(AfterLobbyJoin_frame w2 so lob player).1, hl2, hw1f.1]
      · rw [hl2, hw1f.1]

/-- Counterexample to C8: `bob` joins lobby 1 while it is in progress.  The
handler calls `AddPlayer`, seats him, replies success, and the lobby, now full,
is moved to `ReadyingUp`. -/
theorem LobbyJoin_inProgress_calls_AddPlayer :
    (GetLobbyByID running 1).toOption.map (fun l => l.State) = some LobbyState.InProgress ∧
    (LobbyJoin table running bobConn (.ok ⟨1, "scout1", "blu", ""⟩)).2 = Reply.success ∧
    Effect.AddPlayer 1 "bob" 1 ∈
      (LobbyJoin table running bobConn (.ok ⟨1, "scout1", "blu", ""⟩)).1.log ∧
    ({ LobbyID := 1, SteamID := "bob", Slot := 1, Ready := false } : LobbySlot) ∈
      (LobbyJoin table running bobConn (.ok ⟨1, "scout1", "blu", ""⟩)).1.slots ∧
    (GetLobbyByID (LobbyJoin table running bobConn (.ok ⟨1, "scout1", "blu", ""⟩)).1
      1).toOption.map (fun l => l.State) = some LobbyState.ReadyingUp := by
  decide

/-- C8, amended. On a lobby in state `InProgress`, `LobbyLeave` replies with an
error and hands back the world it was given, the error being
"Lobby is in progress." with code 1 for a recorded player, so `RemovePlayer` is
never called.  `LobbyJoin` does not test for `InProgress`: for a recorded player
without a join ban and an existing slot it calls `AddPlayer` on the lobby; when
the join then succeeds and the lobby is not full afterwards, the stored row is
unchanged, still `InProgress`, and the last effect is the `lobbyStart` message
to the joiner. -/
theorem inProgress_leave_rejected_join_admitted (T : SlotTable) (w : World) (id : Nat)
    (lob : Lobby) (hlob : GetLobbyByID w id = .ok lob)
    (hst : lob.State = LobbyState.InProgress) :
    (∀ so, (∃ e, LobbyLeave w so (.ok ⟨id⟩) = (w, Reply.error e)) ∧
      (∀ p, GetPlayerBySteamID w so.SteamId = .ok p →
        LobbyLeave w so (.ok ⟨id⟩) =
          (w, Reply.error (NewTPError "Lobby is in progress." 1)))) ∧
    (∀ so (a : JoinArgs) p slot, a.Id = id → GetPlayerBySteamID w so.SteamId = .ok p →
      (p.IsBannedWithTime w PlayerBanType.PlayerBanJoin).1 = false →
      LobbyGetPlayerSlot T lob.Typ a.Team a.Class = .ok slot →
      Effect.AddPlayer id p.SteamID slot ∈ (LobbyJoin T w so (.ok a)).1.log ∧
      ((LobbyJoin T w so (.ok a)).2 = Reply.success →
        lob.IsFull T (LobbyJoin T w so (.ok a)).1 = false →
        GetLobbyByID (LobbyJoin T w so (.ok a)).1 id = .ok lob ∧
        (LobbyJoin T w so (.ok a)).1.log.getLast? =
          some (Effect.SendMessage p.SteamID "lobbyStart"))) := by
  refine ⟨fun so => ?_, ?_⟩
  · obtain ⟨hspec, l, p, e, hgen⟩ := removePlayerFromLobby_inProgress w id lob so.SteamId hlob hst
    refine ⟨⟨e, by simp only [LobbyLeave, hgen]⟩, fun p hp => ?_⟩
    simp only [LobbyLeave, hspec p hp]
  · intro so a p slot ha hp hban hslot
    subst ha
    have hid : lob.ID = a.Id := GetLobbyByID_id w a.Id lob hlob
    obtain ⟨w1, hl1, hs1, h⟩ := LobbyJoin_reaches_AddPlayer T w so a p lob slot hp hban hlob
      (by rw [hst]; decide) hslot
    have hmem : Effect.AddPlayer a.Id p.SteamID slot ∈
        (lob.AddPlayer w1 p slot a.Password).1.log := by
      rw [AddPlayer_log, hid]
      simp
    rcases h with ⟨e, he, hjoin⟩ | ⟨w3, hnone, hlog, hl3, hjoin⟩
    · rw [hjoin]
      exact ⟨hmem, fun h => by cases h⟩
    · rw [hjoin]
      refine ⟨afterJoin_log T w3 lob p _ (hlog _ hmem), fun _ hfull => ?_⟩
      rw [IsFull_congr T w3 _ lob (afterJoin_slots T w3 lob p)] at hfull
      rw [afterJoin_inProgress_notFull T w3 lob p hst hfull]
      refine ⟨?_, by simp [broadcaster.SendMessage, World.record]⟩
      rw [← hlob]
      simp only [GetLobbyByID, broadcaster.SendMessage, World.record, hl3]

/-- Witness for C8, amended: `alice` may not leave the running lobby, and `bob`
joins a running lobby with two free seats. -/
theorem inProgress_leave_rejected_join_admitted_witness :
    LobbyLeave running aliceConn (.ok ⟨1⟩) =
      (running, Reply.error (NewTPError "Lobby is in progress." 1)) ∧
    Effect.AddPlayer 1 "bob" 1 ∈
      (LobbyJoin table runningEmpty bobConn (.ok ⟨1, "scout1", "blu", ""⟩)).1.log ∧
    GetLobbyByID (LobbyJoin table runningEmpty bobConn (.ok ⟨1, "scout1", "blu", ""⟩)).1 1 =
      .ok (mkLobby 1 LobbyState.InProgress) ∧
    (LobbyJoin table runningEmpty bobConn (.ok ⟨1, "scout1", "blu", ""⟩)).1.log.getLast? =
      some (Effect.SendMessage "bob" "lobbyStart") :=
  have h1 := inProgress_leave_rejected_join_admitted table running 1
    (mkLobby 1 LobbyState.InProgress) rfl rfl
  have h2 := inProgress_leave_rejected_join_admitted table runningEmpty 1
    (mkLobby 1 LobbyState.InProgress) rfl rfl
  have hj := h2.2 bobConn ⟨1, "scout1", "blu", ""⟩ (mkPlayer "bob" Role.Normal) 1 rfl rfl rfl rfl
  ⟨(h1.1 aliceConn).2 (mkPlayer "alice" Role.Normal) rfl, hj.1,
   (hj.2 (by decide) (by decide)).1, (hj.2 (by decide) (by decide)).2⟩

/-! ### C9: leaving a lobby one is not seated in -/

/-- C9. On a lobby in state `Waiting` or `ReadyingUp`, for a recorded player
for whom `GetPlayerSlot` returns an error, `LobbyLeave` replies
"Player not playing" with code 2 and hands back the world it was given:
neither `RemovePlayer` nor `AddSpectator` is called, and slots and spectators
are unchanged. -/
theorem LobbyLeave_not_seated (w : World) (so : Client) (id : Nat) (lob : Lobby) (p : Player)
    (e : TPError) (hlob : GetLobbyByID w id = .ok lob)
    (hp : GetPlayerBySteamID w so.SteamId = .ok p)
    (hst : lob.State = LobbyState.Waiting ∨ lob.State = LobbyState.ReadyingUp)
    (hslot : lob.GetPlayerSlot w p = .error e) :
    LobbyLeave w so (.ok ⟨id⟩) = (w, Reply.error (NewTPError "Player not playing" 2)) := by
  rcases hst with hst | hst <;>
    simp only [LobbyLeave, removePlayerFromLobby, hp, hlob, hst, hslot]

/-- Witness for C9: `bob` holds no slot in lobby 1. -/
theorem LobbyLeave_not_seated_witness :
    LobbyLeave waitingWorld bobConn (.ok ⟨1⟩) =
      (waitingWorld, Reply.error (NewTPError "Player not playing" 2)) :=
  LobbyLeave_not_seated waitingWorld bobConn 1 (mkLobby 1 LobbyState.Waiting)
    (mkPlayer "bob" Role.Normal) errNotInLobby rfl rfl (Or.inl rfl) rfl

/-! ### C10: leaving a lobby one is seated in -/

/-- Counterexample to C10: `alice` leaves lobby 1 while the store refuses
`AddSpectator`.  `RemovePlayer` has already vacated her slot when the error of
`AddSpectator` is returned: the reply is an error, the slot is gone and she is
not a spectator. -/
theorem LobbyLeave_error_after_vacating :
    Lobby.GetPlayerSlot waitingFailing (mkLobby 1 LobbyState.Waiting)
      (mkPlayer "alice" Role.Normal) = .ok 0 ∧
    (LobbyLeave waitingFailing aliceConn (.ok ⟨1⟩)).2 = Reply.error errStore ∧
    (LobbyLeave waitingFailing aliceConn (.ok ⟨1⟩)).1.slots = [] ∧
    (LobbyLeave waitingFailing aliceConn (.ok ⟨1⟩)).1.spectators = [] ∧
    (LobbyLeave waitingFailing aliceConn (.ok ⟨1⟩)).1.log =
      [Effect.RemovePlayer 1 "alice", Effect.AddSpectator 1 "alice"] := by
  refine ⟨rfl, ?_⟩
  decide

/-- C10, amended. On a lobby in state `Waiting` or `ReadyingUp`, for a recorded
player holding a slot: a `LobbyLeave` that replies success has removed exactly
the slot rows of that player in that lobby, every other row being unchanged,
and the player is in the spectator set of the lobby; success is the reply
whenever neither store call fails.  When `RemovePlayer` fails the reply is its
error and slots and spectators are unchanged.  When `RemovePlayer` succeeds and
`AddSpectator` fails the reply is the error of `AddSpectator`, with the slot
already vacated and the spectator set unchanged. -/
theorem LobbyLeave_seated (w : World) (so : Client) (id : Nat) (lob : Lobby) (p : Player)
    (k : Nat) (hlob : GetLobbyByID w id = .ok lob)
    (hp : GetPlayerBySteamID w so.SteamId = .ok p)
    (hst : lob.State = LobbyState.Waiting ∨ lob.State = LobbyState.ReadyingUp)
    (hslot : lob.GetPlayerSlot w p = .ok k) :
    ((LobbyLeave w so (.ok ⟨id⟩)).2 = Reply.success →
      (LobbyLeave w so (.ok ⟨id⟩)).1.slots =
        w.slots.filter (fun s => decide (¬ (s.LobbyID = id ∧ s.SteamID = p.SteamID))) ∧
      (id, p.SteamID) ∈ (LobbyLeave w so (.ok ⟨id⟩)).1.spectators) ∧
    (Op.RemovePlayer ∈ w.failing →
      (LobbyLeave w so (.ok ⟨id⟩)).2 = Reply.error errStore ∧
      (LobbyLeave w so (.ok ⟨id⟩)).1.slots = w.slots ∧
      (LobbyLeave w so (.ok ⟨id⟩)).1.spectators = w.spectators) ∧
    (Op.RemovePlayer ∉ w.failing → Op.AddSpectator ∈ w.failing →
      (LobbyLeave w so (.ok ⟨id⟩)).2 = Reply.error errStore ∧
      (LobbyLeave w so (.ok ⟨id⟩)).1.slots =
        w.slots.filter (fun s => decide (¬ (s.LobbyID = id ∧ s.SteamID = p.SteamID))) ∧
      (LobbyLeave w so (.ok ⟨id⟩)).1.spectators = w.spectators) ∧
    (Op.RemovePlayer ∉ w.failing → Op.AddSpectator ∉ w.failing →
      (LobbyLeave w so (.ok ⟨id⟩)).2 = Reply.success) := by
  have hid : lob.ID = id := GetLobbyByID_id w id lob hlob
  subst hid
  by_cases h1 : Op.RemovePlayer ∈ w.failing
  · have h : LobbyLeave w so (.ok ⟨lob.ID⟩) =
        (w.record (Effect.RemovePlayer lob.ID p.SteamID), Reply.error errStore) := by
      rcases hst with hst | hst <;>
        simp [LobbyLeave, removePlayerFromLobby, hp, hlob, hst, hslot, Lobby.RemovePlayer,
          World.record, h1]
    rw [h]
    exact ⟨fun h => (by cases h), fun _ => ⟨rfl, rfl, rfl⟩, fun h => absurd h1 h,
      fun h => absurd h1 h⟩
  · by_cases h2 : Op.AddSpectator ∈ w.failing
    · have h : LobbyLeave w so (.ok ⟨lob.ID⟩) =
          ({ (w.record (Effect.RemovePlayer lob.ID p.SteamID)).record
              (Effect.AddSpectator lob.ID p.SteamID) with
            slots := w.slots.filter
              (fun s => decide (¬ (s.LobbyID = lob.ID ∧ s.SteamID = p.SteamID))) },
            Reply.error errStore) := by
        rcases hst with hst | hst <;>
          simp [LobbyLeave, removePlayerFromLobby, hp, hlob, hst, hslot, Lobby.RemovePlayer,
            Lobby.AddSpectator, World.record, h1, h2]
      rw [h]
      exact ⟨fun h => (by cases h), fun h => absurd h h1, fun _ _ => ⟨rfl, rfl, rfl⟩,
        fun _ h => absurd h2 h⟩
    · have h : (LobbyLeave w so (.ok ⟨lob.ID⟩)).2 = Reply.success ∧
          (LobbyLeave w so (.ok ⟨lob.ID⟩)).1.slots =
            w.slots.filter (fun s => decide (¬ (s.LobbyID = lob.ID ∧ s.SteamID = p.SteamID))) ∧
          (lob.ID, p.SteamID) ∈ (LobbyLeave w so (.ok ⟨lob.ID⟩)).1.spectators := by
        by_cases h3 : (lob.ID, p.SteamID) ∈ w.spectators <;> rcases hst with hst | hst <;>
          simp [LobbyLeave, removePlayerFromLobby, hp, hlob, hst, hslot, Lobby.RemovePlayer,
            Lobby.AddSpectator, World.record, h1, h2, h3, chelpers.AfterLobbyLeave,
            wsevent.RemoveClient, broadcaster.SendMessage]
      exact ⟨fun _ => h.2, fun h => absurd h h1, fun _ h => absurd h h2, fun _ _ => h.1⟩

/-- Witness for C10, amended: `alice` leaves lobby 1 with a working store. -/
theorem LobbyLeave_seated_witness :
    (LobbyLeave waitingWorld aliceConn (.ok ⟨1⟩)).2 = Reply.success ∧
    (LobbyLeave waitingWorld aliceConn (.ok ⟨1⟩)).1.slots =
      waitingWorld.slots.filter (fun s => decide (¬ (s.LobbyID = 1 ∧ s.SteamID = "alice"))) ∧
    ((1 : Nat), "alice") ∈ (LobbyLeave waitingWorld aliceConn (.ok ⟨1⟩)).1.spectators :=
  have h := LobbyLeave_seated waitingWorld aliceConn 1 (mkLobby 1 LobbyState.Waiting)
    (mkPlayer "alice" Role.Normal) 0 rfl rfl (Or.inl rfl) rfl
  ⟨h.2.2.2 (by decide) (by decide), h.1 (h.2.2.2 (by decide) (by decide))⟩

/-! ### Lemmas shared by the claims below -/

/-- Filtering out a value that does not occur changes nothing. -/
theorem filter_ne_of_not_mem {α : Type} [DecidableEq α] (l : List α) (x : α) (h : x ∉ l) :
    l.filter (fun s => decide (s ≠ x)) = l := by
  rw [List.filter_eq_self]
  intro a ha
  simp only [decide_eq_true_eq]
  rintro rfl
  exact h ha

/-- A player found by steam id carries that steam id. -/
theorem GetPlayerBySteamID_id (w : World) (steamid : String) (p : Player)
    (h : GetPlayerBySteamID w steamid = .ok p) : p.SteamID = steamid := by
  unfold GetPlayerBySteamID at h
  cases hf : w.players.find? (fun p => decide (p.SteamID = steamid)) with
  | none => simp [hf] at h
  | some q =>
    simp only [hf, Except.ok.injEq] at h
    subst h
    simpa using List.find?_some hf

/-- The character of a decimal digit denotes that digit. -/
theorem digitChar_toNat (k : Nat) (h : k < 10) : (Nat.digitChar k).toNat - 48 = k := by
  interval_cases k <;> rfl

/-- Reading back the digits `Nat.toDigitsCore` produces gives the number. -/
theorem toDigitsCore_value (fuel : Nat) : ∀ (n : Nat) (ds : List Char), n < fuel →
    (Nat.toDigitsCore 10 fuel n ds).foldl (fun (acc : Nat) (c : Char) => 10 * acc + (c.toNat - 48)) 0 =
      ds.foldl (fun (acc : Nat) (c : Char) => 10 * acc + (c.toNat - 48)) n := by
  induction fuel with
  | zero => intro n ds h; omega
  | succ fuel ih =>
    intro n ds h
    simp only [Nat.toDigitsCore]
    split_ifs with h0
    · have hn : n < 10 := by
        by_contra hc
        have : 1 ≤ n / 10 := Nat.div_pos (by omega) (by omega)
        omega
      simp only [List.foldl_cons, Nat.mul_zero, Nat.zero_add, Nat.mod_eq_of_lt hn,
        digitChar_toNat n hn]
    · have hlt : n / 10 < fuel := by
        have : n / 10 < n := Nat.div_lt_self (by omega) (by omega)
        omega
      rw [ih (n / 10) _ hlt]
      simp only [List.foldl_cons, digitChar_toNat (n % 10) (Nat.mod_lt _ (by omega))]
      congr 1
      omega

/-- Decimal printing of natural numbers is injective. -/
theorem toString_nat_injective (a b : Nat) (h : toString a = toString b) : a = b := by
  have h2 : (Nat.toDigits 10 a) = (Nat.toDigits 10 b) := by
    have := congrArg String.data h
    simpa [toString, Nat.repr, List.asString] using this
  have ha := toDigitsCore_value (a + 1) a [] (by omega)
  have hb := toDigitsCore_value (b + 1) b [] (by omega)
  simp only [List.foldl_nil] at ha hb
  unfold Nat.toDigits at h2
  rw [← ha, ← hb, h2]

/-- A public suffix never equals a private one. -/
theorem room_suffix_distinct (xs ys : List Char) :
    xs ++ "_public".data ≠ ys ++ "_private".data := by
  intro h
  have := congrArg List.getLast? h
  simp at this

/-- Public and private room names determine the lobby id and the scope. -/
theorem room_names_collision_free (a b : Nat) :
    (publicRoom a = publicRoom b ↔ a = b) ∧
    (privateRoom a = privateRoom b ↔ a = b) ∧
    publicRoom a ≠ privateRoom b ∧
    privateRoom a ≠ publicRoom b := by
  refine ⟨⟨fun h => ?_, fun h => by rw [h]⟩, ⟨fun h => ?_, fun h => by rw [h]⟩, ?_, ?_⟩
  · apply toString_nat_injective
    have := congrArg String.data h
    simp only [publicRoom, String.data_append] at this
    exact String.ext (List.append_cancel_right this)
  · apply toString_nat_injective
    have := congrArg String.data h
    simp only [privateRoom, String.data_append] at this
    exact String.ext (List.append_cancel_right this)
  · intro h
    have := congrArg String.data h
    simp only [publicRoom, privateRoom, String.data_append] at this
    exact room_suffix_distinct _ _ this
  · intro h
    have := congrArg String.data h
    simp only [publicRoom, privateRoom, String.data_append] at this
    exact room_suffix_distinct _ _ this.symm

/-! ### C11: leaving the spectators -/

/-- Counterexample to C11: `bob` neither spectates lobby 1 nor sits in it, and
`LobbySpectatorLeave` replies success after calling `RemoveSpectator`. -/
theorem LobbySpectatorLeave_nonspectator_succeeds :
    ((1 : Nat), "bob") ∉ waitingWorld.spectators ∧
    (Player.GetLobbyID waitingWorld (mkPlayer "bob" Role.Normal) false).1 = 0 ∧
    (LobbySpectatorLeave waitingWorld bobConn (.ok ⟨1⟩)).2 = Reply.success ∧
    (LobbySpectatorLeave waitingWorld bobConn (.ok ⟨1⟩)).1.log =
      [Effect.RemoveSpectator 1 "bob", Effect.RemoveClient "c-bob" "1_public"] := by
  decide

/-- C11, amended. For every existing lobby and recorded player,
`LobbySpectatorLeave` replies success whether or not the player is in the
spectator set of the lobby; no not-spectating error exists.  Afterwards the
spectator set is the one before the call without the player: a spectator has
been removed, for a non-spectator the set is unchanged, and slot rows are
untouched. -/
theorem LobbySpectatorLeave_always_succeeds (w : World) (so : Client) (id : Nat) (lob : Lobby)
    (p : Player) (hlob : GetLobbyByID w id = .ok lob)
    (hp : GetPlayerBySteamID w so.SteamId = .ok p) :
    (LobbySpectatorLeave w so (.ok ⟨id⟩)).2 = Reply.success ∧
    (LobbySpectatorLeave w so (.ok ⟨id⟩)).1.spectators =
      w.spectators.filter (fun s => decide (s ≠ (id, p.SteamID))) ∧
    ((id, p.SteamID) ∉ w.spectators →
      (LobbySpectatorLeave w so (.ok ⟨id⟩)).1.spectators = w.spectators) ∧
    (LobbySpectatorLeave w so (.ok ⟨id⟩)).1.slots = w.slots := by
  have hid : lob.ID = id := GetLobbyByID_id w id lob hlob
  subst hid
  have key : (LobbySpectatorLeave w so (.ok ⟨lob.ID⟩)).2 = Reply.success ∧
      (LobbySpectatorLeave w so (.ok ⟨lob.ID⟩)).1.spectators =
        w.spectators.filter (fun s => decide (s ≠ (lob.ID, p.SteamID))) ∧
      (LobbySpectatorLeave w so (.ok ⟨lob.ID⟩)).1.slots = w.slots := by
    simp only [LobbySpectatorLeave, hp, hlob]
    split_ifs with h
    · refine ⟨rfl, ?_, rfl⟩
      have hns : (lob.ID, p.SteamID) ∉ w.spectators := by
        simpa [Player.IsSpectatingID] using h.1
      rw [filter_ne_of_not_mem _ _ hns]
      rfl
    · exact ⟨rfl, rfl, rfl⟩
  refine ⟨key.1, key.2.1, fun hns => ?_, key.2.2⟩
  rw [key.2.1, filter_ne_of_not_mem _ _ hns]

/-- Witness for C11, amended: `bob`, who does not spectate lobby 1. -/
theorem LobbySpectatorLeave_always_succeeds_witness :
    (LobbySpectatorLeave waitingWorld bobConn (.ok ⟨1⟩)).2 = Reply.success ∧
    (LobbySpectatorLeave waitingWorld bobConn (.ok ⟨1⟩)).1.spectators = waitingWorld.spectators :=
  have h := LobbySpectatorLeave_always_succeeds waitingWorld bobConn 1
    (mkLobby 1 LobbyState.Waiting) (mkPlayer "bob" Role.Normal) rfl rfl
  ⟨h.1, h.2.2.1 (by decide)⟩

/-! ### C12: joining the spectators -/

/-- What the loop of `LobbySpectatorJoin` leaves behind when it runs to its end. -/
theorem spectatorLoop_spec (so : Client) (player : Player) (target : Nat) (ids : List Nat) :
    ∀ (w0 : World) (flag : Bool) (w1 : World) (flag1 : Bool),
      LobbySpectatorJoin.loop so player target ids w0 flag = .ok (w1, flag1) →
      w1.slots = w0.slots ∧ w1.lobbies = w0.lobbies ∧ w1.failing = w0.failing ∧
      w1.spectators = w0.spectators.filter
        (fun s => decide (¬ (s.2 = player.SteamID ∧ s.1 ∈ ids ∧ s.1 ≠ target))) ∧
      w1.subs = w0.subs.filter
        (fun s => decide (¬ (s.1 = so.Id ∧ ∃ id ∈ ids, id ≠ target ∧ s.2 = publicRoom id))) ∧
      flag1 = (flag || decide (target ∈ ids)) ∧
      (∃ t, w1.log = w0.log ++ t ∧ ∀ e ∈ t,
        (∃ l s, e = Effect.RemoveSpectator l s) ∨ (∃ c r, e = Effect.RemoveClient c r)) := by
  induction ids with
  | nil =>
    intro w0 flag w1 flag1 h
    simp only [LobbySpectatorJoin.loop, Except.ok.injEq, Prod.mk.injEq] at h
    obtain ⟨rfl, rfl⟩ := h
    refine ⟨rfl, rfl, rfl, ?_, ?_, by simp, ⟨[], by simp, by simp⟩⟩
    · simp
    · simp
  | cons id rest ih =>
    intro w0 flag w1 flag1 h
    unfold LobbySpectatorJoin.loop at h
    by_cases hid : id = target
    · rw [if_pos hid] at h
      obtain ⟨h1, h2, h3, h4, h5, h6, h7⟩ := ih w0 true w1 flag1 h
      subst hid
      refine ⟨h1, h2, h3, ?_, ?_, ?_, h7⟩
      · rw [h4]
        congr 1
        funext s
        simp only [List.mem_cons, decide_eq_decide]
        constructor
        · rintro hn ⟨ha, hb | hb, hc⟩
          · exact hc hb
          · exact hn ⟨ha, hb, hc⟩
        · rintro hn ⟨ha, hb, hc⟩
          exact hn ⟨ha, Or.inr hb, hc⟩
      · rw [h5]
        congr 1
        funext s
        simp only [List.mem_cons, decide_eq_decide]
        constructor
        · rintro hn ⟨ha, j, hj | hj, hc, hd⟩
          · exact hc hj
          · exact hn ⟨ha, j, hj, hc, hd⟩
        · rintro hn ⟨ha, j, hj, hc, hd⟩
          exact hn ⟨ha, j, Or.inr hj, hc, hd⟩
      · simp [h6]
    · rw [if_neg hid] at h
      rcases hl : GetLobbyByID w0 id with e | lobby
      · simp [hl] at h
      · simp only [hl] at h
        have hlid : lobby.ID = id := GetLobbyByID_id w0 id lobby hl
        obtain ⟨h1, h2, h3, h4, h5, h6, t, ht, hnt⟩ := ih _ flag w1 flag1 h
        refine ⟨h1, h2, h3, ?_, ?_, ?_, ?_⟩
        · rw [h4]
          simp only [wsevent.RemoveClient, Lobby.RemoveSpectator, World.record, List.filter_filter,
            hlid]
          congr 1
          funext s
          rcases s with ⟨s1, s2⟩
          rw [Bool.eq_iff_iff]
          simp only [Bool.and_eq_true, decide_eq_true_eq, List.mem_cons, ne_eq, Prod.mk.injEq]
          constructor
          · rintro ⟨hn, hne⟩ ⟨ha, hb | hb, hc⟩
            · exact hne ⟨hb, ha⟩
            · exact hn ⟨ha, hb, hc⟩
          · intro hn
            refine ⟨fun ⟨ha, hb, hc⟩ => hn ⟨ha, Or.inr hb, hc⟩, fun ⟨hb, ha⟩ => ?_⟩
            exact hn ⟨ha, Or.inl hb, hb ▸ hid⟩
        · rw [h5]
          simp only [wsevent.RemoveClient, Lobby.RemoveSpectator, World.record, List.filter_filter]
          congr 1
          funext s
          rcases s with ⟨s1, s2⟩
          rw [Bool.eq_iff_iff]
          simp only [Bool.and_eq_true, decide_eq_true_eq, List.mem_cons, ne_eq, Prod.mk.injEq]
          constructor
          · rintro ⟨hn, hne⟩ ⟨ha, j, hj | hj, hc, hd⟩
            · exact hne ⟨ha, hj ▸ hd⟩
            · exact hn ⟨ha, j, hj, hc, hd⟩
          · intro hn
            refine ⟨fun ⟨ha, j, hj, hc, hd⟩ => hn ⟨ha, j, Or.inr hj, hc, hd⟩, fun ⟨ha, hd⟩ => ?_⟩
            exact hn ⟨ha, id, Or.inl rfl, hid, hd⟩
        · rw [h6]
          have : decide (target ∈ id :: rest) = decide (target ∈ rest) := by
            simp only [List.mem_cons, decide_eq_decide]
            constructor
            · rintro (h | h)
              · exact absurd h.symm hid
              · exact h
            · exact Or.inr
          rw [this]
        · refine ⟨[Effect.RemoveSpectator lobby.ID player.SteamID,
            Effect.RemoveClient so.Id (publicRoom id)] ++ t, ?_, ?_⟩
          · rw [ht]
            simp [wsevent.RemoveClient, Lobby.RemoveSpectator, World.record]
          · intro e he
            simp only [List.mem_append, List.mem_cons, List.mem_singleton, List.not_mem_nil,
              or_false] at he
            rcases he with (rfl | rfl) | he
            · exact Or.inl ⟨_, _, rfl⟩
            · exact Or.inr ⟨_, _, rfl⟩
            · exact hnt e he

/-- The spectated ids are the lobbies whose spectator set holds the player. -/
theorem mem_GetSpectatingIds (w : World) (p : Player) (id : Nat) :
    id ∈ p.GetSpectatingIds w ↔ (id, p.SteamID) ∈ w.spectators := by
  unfold Player.GetSpectatingIds
  simp only [List.mem_map, List.mem_filter, decide_eq_true_eq]
  constructor
  · rintro ⟨⟨s1, s2⟩, ⟨hs, h2⟩, h1⟩
    simp only at h1 h2
    subst h1 h2
    exact hs
  · intro h
    exact ⟨(id, p.SteamID), ⟨h, rfl⟩, rfl⟩

/-- What the spectate hook and the final broadcast change. -/
theorem AfterLobbySpec_frame (w : World) (so : Client) (lob : Lobby) (steamid : String) :
    (BroadcastLobbyToUser (chelpers.AfterLobbySpec w so lob) lob steamid).spectators =
      w.spectators ∧
    (BroadcastLobbyToUser (chelpers.AfterLobbySpec w so lob) lob steamid).slots = w.slots ∧
    (∀ s, s ∈ (BroadcastLobbyToUser (chelpers.AfterLobbySpec w so lob) lob steamid).subs →
      s ∈ w.subs ∨ s = (so.Id, publicRoom lob.ID)) ∧
    (BroadcastLobbyToUser (chelpers.AfterLobbySpec w so lob) lob steamid).log =
      w.log ++ [Effect.AddClient so.Id (publicRoom lob.ID),
        Effect.BroadcastLobbyToUser lob.ID steamid] := by
  unfold BroadcastLobbyToUser chelpers.AfterLobbySpec wsevent.AddClient
  simp only [World.record]
  split_ifs
  · exact ⟨rfl, rfl, fun s hs => Or.inl hs, by simp⟩
  · refine ⟨rfl, rfl, fun s hs => ?_, by simp⟩
    simpa using hs

/-- Counterexample to C12: `alice`, seated in lobby 1 and already spectating
lobby 2, asks to spectate lobby 2.  The loop only sets `specSameLobby`, so the
handler calls neither `RemoveSpectator` nor `AddSpectator`: its effects are the
subscription of the hook and the final broadcast.  The reply is success and she
still holds her slot in lobby 1. -/
theorem LobbySpectatorJoin_keeps_seat_elsewhere :
    (Player.GetLobbyID seatedWatching (mkPlayer "alice" Role.Normal) false).1 = 1 ∧
    (LobbySpectatorJoin seatedWatching aliceConn (.ok ⟨2⟩)).2 = Reply.success ∧
    (LobbySpectatorJoin seatedWatching aliceConn (.ok ⟨2⟩)).1.log =
      [Effect.AddClient "c-alice" "2_public", Effect.BroadcastLobbyToUser 2 "alice"] ∧
    ({ LobbyID := 1, SteamID := "alice", Slot := 0, Ready := false } : LobbySlot) ∈
      (LobbySpectatorJoin seatedWatching aliceConn (.ok ⟨2⟩)).1.slots ∧
    (Player.GetLobbyID (LobbySpectatorJoin seatedWatching aliceConn (.ok ⟨2⟩)).1
      (mkPlayer "alice" Role.Normal) false).1 = 1 := by
  decide

/-- C12, amended. After every `LobbySpectatorJoin` of lobby `L` that replies
success, the player is a spectator of no lobby other than `L`, and for every
other lobby it spectated before the call the connection is no longer subscribed
to the public room of that lobby.  When the player was already spectating `L`
or seated in `L`, the call performs no `AddSpectator`, the number of entries of
the player in the spectator set of `L` is unchanged, and every slot row is as
before, so a seat the player holds in another lobby is kept. -/
theorem LobbySpectatorJoin_success (w : World) (so : Client) (a : IdArgs) (lob : Lobby)
    (player : Player) (hlob : GetLobbyByID w a.Id = .ok lob)
    (hp : GetPlayerBySteamID w so.SteamId = .ok player)
    (hok : (LobbySpectatorJoin w so (.ok a)).2 = Reply.success) :
    (∀ id, (id, player.SteamID) ∈ (LobbySpectatorJoin w so (.ok a)).1.spectators → id = a.Id) ∧
    (∀ id, id ≠ a.Id → (id, player.SteamID) ∈ w.spectators →
      (so.Id, publicRoom id) ∉ (LobbySpectatorJoin w so (.ok a)).1.subs) ∧
    (((a.Id, player.SteamID) ∈ w.spectators ∨ (player.GetLobbyID w false).1 = a.Id) →
      (∀ e ∈ (LobbySpectatorJoin w so (.ok a)).1.log.drop w.log.length,
        ∀ l s, e ≠ Effect.AddSpectator l s) ∧
      (LobbySpectatorJoin w so (.ok a)).1.spectators.count (a.Id, player.SteamID) =
        w.spectators.count (a.Id, player.SteamID) ∧
      (LobbySpectatorJoin w so (.ok a)).1.slots = w.slots) := by
  have hlid : lob.ID = a.Id := GetLobbyByID_id w a.Id lob hlob
  unfold LobbySpectatorJoin at hok ⊢
  simp only [hlob, hp] at hok ⊢
  rcases hloop : LobbySpectatorJoin.loop so player a.Id (player.GetSpectatingIds w) w false
    with wc | ⟨w1, flag1⟩
  · simp [hloop] at hok
  simp only [hloop] at hok ⊢
  obtain ⟨hs1, _, hf1, hsp1, hsub1, hflag, t, ht, hnt⟩ :=
    spectatorLoop_spec so player a.Id _ w false w1 flag1 hloop
  have F1 : ∀ id, (id, player.SteamID) ∈ w1.spectators → id = a.Id := by
    intro id hmem
    rw [hsp1, List.mem_filter] at hmem
    by_contra hne
    exact of_decide_eq_true hmem.2 ⟨rfl, (mem_GetSpectatingIds w player id).2 hmem.1, hne⟩
  have F2 : ∀ id, id ≠ a.Id → (id, player.SteamID) ∈ w.spectators →
      (so.Id, publicRoom id) ∉ w1.subs := by
    intro id hne hmem hin
    rw [hsub1, List.mem_filter] at hin
    exact of_decide_eq_true hin.2 ⟨rfl, id, (mem_GetSpectatingIds w player id).2 hmem, hne, rfl⟩
  have F3 : w1.spectators.count (a.Id, player.SteamID) =
      w.spectators.count (a.Id, player.SteamID) := by
    rw [hsp1]
    exact List.count_filter (by simp)
  have Fsub : ∀ (wx : World), wx.subs = w1.subs → ∀ id, id ≠ a.Id →
      (id, player.SteamID) ∈ w.spectators →
      (so.Id, publicRoom id) ∉
        (BroadcastLobbyToUser (chelpers.AfterLobbySpec wx so lob) lob player.SteamID).subs := by
    intro wx hwx id hne hmem hin
    rcases (AfterLobbySpec_frame wx so lob player.SteamID).2.2.1 _ hin with h | h
    · rw [hwx] at h
      exact F2 id hne hmem h
    · simp only [Prod.mk.injEq, true_and] at h
      rw [hlid] at h
      exact hne ((room_names_collision_free id a.Id).1.1 h)
  have hgl : (player.GetLobbyID w1 false).1 = (player.GetLobbyID w false).1 := by
    simp only [Player.GetLobbyID, hs1]
  by_cases hcond : (player.GetLobbyID w1 false).1 ≠ a.Id ∧ flag1 = false
  · rw [if_pos hcond] at hok ⊢
    rcases hadd : lob.AddSpectator w1 player with ⟨w2, r⟩
    cases r with
    | some e => simp [hadd] at hok
    | none =>
      simp only [hadd]
      have hw2 : w2.subs = w1.subs ∧
          (∀ s, s ∈ w2.spectators → s ∈ w1.spectators ∨ s = (lob.ID, player.SteamID)) := by
        have := congrArg Prod.fst hadd
        simp only [Lobby.AddSpectator, World.record] at this
        rw [hf1] at this
        split_ifs at this <;> subst this
        · exact ⟨by trivial, fun s hs => Or.inl hs⟩
        · exact ⟨by trivial, fun s hs => Or.inl hs⟩
        · refine ⟨by trivial, fun s hs => ?_⟩
          simpa using hs
      obtain ⟨fr1, _, _, _⟩ := AfterLobbySpec_frame w2 so lob player.SteamID
      refine ⟨fun id hmem => ?_, Fsub w2 hw2.1, fun hyes => ?_⟩
      · rw [fr1] at hmem
        rcases hw2.2 _ hmem with h | h
        · exact F1 id h
        · simp only [Prod.mk.injEq] at h
          rw [h.1, hlid]
      · exfalso
        rcases hyes with h | h
        · have : flag1 = true := by
            rw [hflag]
            simp [(mem_GetSpectatingIds w player a.Id).2 h]
          rw [this] at hcond
          exact absurd hcond.2 (by simp)
        · exact hcond.1 (hgl ▸ h)
  · rw [if_neg hcond] at hok ⊢
    obtain ⟨fr1, fr2, _, fr4⟩ := AfterLobbySpec_frame w1 so lob player.SteamID
    have hadded : ∀ e ∈ (BroadcastLobbyToUser (chelpers.AfterLobbySpec w1 so lob) lob
        player.SteamID).log.drop w.log.length, ∀ l s, e ≠ Effect.AddSpectator l s := by
      intro e he l s
      rw [fr4, ht, List.append_assoc, List.drop_left] at he
      simp only [List.mem_append, List.mem_cons, List.mem_singleton, List.not_mem_nil,
        or_false] at he
      rcases he with he | rfl | rfl
      · rcases hnt e he with ⟨_, _, rfl⟩ | ⟨_, _, rfl⟩ <;> exact fun h => by cases h
      · exact fun h => by cases h
      · exact fun h => by cases h
    refine ⟨fun id hmem => F1 id (fr1 ▸ hmem), Fsub w1 rfl,
      fun _ => ⟨hadded, ?_, by rw [fr2, hs1]⟩⟩
    rw [fr1, F3]

/-- Witness for C12, amended: `alice`, spectating lobby 1, moves to the
spectators of lobby 2; and `alice`, seated in lobby 1 and already spectating
lobby 2, asks for lobby 2 again and keeps every slot row. -/
theorem LobbySpectatorJoin_success_witness :
    (∀ id, (id, "alice") ∈ (LobbySpectatorJoin watching aliceConn (.ok ⟨2⟩)).1.spectators →
      id = 2) ∧
    ("c-alice", publicRoom 1) ∉ (LobbySpectatorJoin watching aliceConn (.ok ⟨2⟩)).1.subs ∧
    (LobbySpectatorJoin seatedWatching aliceConn (.ok ⟨2⟩)).1.spectators.count (2, "alice") =
      seatedWatching.spectators.count (2, "alice") ∧
    (LobbySpectatorJoin seatedWatching aliceConn (.ok ⟨2⟩)).1.slots = seatedWatching.slots :=
  have h2 := LobbySpectatorJoin_success watching aliceConn ⟨2⟩ (mkLobby 2 LobbyState.Waiting)
    (mkPlayer "alice" Role.Normal) rfl rfl (by decide)
  have h1 := LobbySpectatorJoin_success seatedWatching aliceConn ⟨2⟩
    (mkLobby 2 LobbyState.Waiting) (mkPlayer "alice" Role.Normal) rfl rfl (by decide)
  ⟨h2.1, h2.2.1 1 (by decide) (by decide), (h1.2.2 (Or.inl (by decide))).2.1,
   (h1.2.2 (Or.inl (by decide))).2.2⟩

/-! ### C13: the sign of error codes -/

/-- Counterexample to C13: the closed-lobby error of `LobbyJoin` and the
already-closed error of `LobbyClose` carry code -1, which is not positive, while
`LobbyLeave` reports the closed lobby with code 1; and a missing authorization
is reported with code -1 by `LobbyClose` and with code 1 by `LobbyKick`. -/
theorem error_codes_mixed_signs :
    (LobbyJoin table closedWorld aliceConn (.ok ⟨1, "scout1", "red", ""⟩)).2.errorCode =
      some (-1) ∧
    (LobbyLeave closedWorld aliceConn (.ok ⟨1⟩)).2.errorCode = some 1 ∧
    (LobbyClose closedWorld ownerConn (.ok ⟨1⟩)).2 =
      Reply.error (NewTPError "Lobby already closed." (-1)) ∧
    (LobbyClose waitingWorld bobConn (.ok ⟨1⟩)).2 =
      Reply.error (NewTPError "Player not authorized to close lobby." (-1)) ∧
    (LobbyKick waitingWorld bobConn (.ok ⟨1, "alice"⟩)).2 =
      Reply.error (NewTPError "Not authorized to kick players" 1) ∧
    ¬ ((0 : Int) < -1) := by
  decide

/-- C13, amended. For an existing lobby and a recorded acting player: the
client-caused rejections carry negative codes (kicking or banning oneself -1,
invalid server address -1, invalid Steam group URL -1, unknown request -3, not
logged in -4); the state-conflict errors of `removePlayerFromLobby` carry
positive codes (lobby in progress 1, lobby closed 1, player not seated 2); the
closed-lobby error of `LobbyJoin` and the already-closed error of `LobbyClose`
carry -1; and a missing authorization carries -1 in `LobbyClose` but 1 in
`LobbyKick` and `LobbyBan`. -/
theorem error_code_signs (T : SlotTable)
    (restV : World → Client → VerifyArgs → World × Reply)
    (restC : World → Client → Player → CreateArgs → String → World × Reply)
    (w : World) (so : Client) (id : Nat) (lob : Lobby) (p : Player)
    (hlob : GetLobbyByID w id = .ok lob) (hp : GetPlayerBySteamID w so.SteamId = .ok p) :
    ((∀ a : KickArgs, a.Steamid = so.SteamId →
        (LobbyKick w so (.ok a)).2.errorCode = some (-1) ∧
        (LobbyBan w so (.ok a)).2.errorCode = some (-1)) ∧
      (∀ a : VerifyArgs, validAddress a.Server.data = false →
        (ServerVerify restV w so (.ok a)).2.errorCode = some (-1)) ∧
      (∀ a : CreateArgs, (p.IsBannedWithTime w PlayerBanType.PlayerBanCreate).1 = false →
        a.SteamGroupWhitelist ≠ "" → rSteamGroup a.SteamGroupWhitelist.data = false →
        (LobbyCreate restC w so (.ok a)).2.errorCode = some (-1)) ∧
      (socket.DefaultHandler w so).2.errorCode = some (-3) ∧
      (socket.noAuthDefaultHandler w so).2.errorCode = some (-4)) ∧
    ((lob.State = LobbyState.InProgress →
        (LobbyLeave w so (.ok ⟨id⟩)).2.errorCode = some 1) ∧
      (lob.State = LobbyState.Ended →
        (LobbyLeave w so (.ok ⟨id⟩)).2.errorCode = some 1) ∧
      (lob.State = LobbyState.Waiting ∨ lob.State = LobbyState.ReadyingUp →
        (∃ e, lob.GetPlayerSlot w p = .error e) →
        (LobbyLeave w so (.ok ⟨id⟩)).2.errorCode = some 2)) ∧
    ((lob.State = LobbyState.Ended →
        (p.IsBannedWithTime w PlayerBanType.PlayerBanJoin).1 = false →
        ∀ a : JoinArgs, a.Id = id → (LobbyJoin T w so (.ok a)).2.errorCode = some (-1)) ∧
      (lob.State = LobbyState.Ended →
        ¬ (p.SteamID ≠ lob.CreatedBySteamID ∧ p.Role ≠ Role.Admin) →
        (LobbyClose w so (.ok ⟨id⟩)).2.errorCode = some (-1))) ∧
    ((p.SteamID ≠ lob.CreatedBySteamID ∧ p.Role ≠ Role.Admin) →
      (LobbyClose w so (.ok ⟨id⟩)).2.errorCode = some (-1) ∧
      ∀ a : KickArgs, a.Id = id → a.Steamid ≠ so.SteamId →
        (LobbyKick w so (.ok a)).2.errorCode = some 1 ∧
        (LobbyBan w so (.ok a)).2.errorCode = some 1) := by
  have hsid : p.SteamID = so.SteamId := GetPlayerBySteamID_id w so.SteamId p hp
  refine ⟨⟨fun a ha => ?_, fun a ha => ?_, fun a hban hne hno => ?_, rfl, rfl⟩,
    ⟨fun hst => ?_, fun hst => ?_, fun hst hslot => ?_⟩,
    ⟨fun hst hban a ha => ?_, fun hst hyes => ?_⟩, fun hno => ⟨?_, fun a ha hne => ?_⟩⟩
  · simp [LobbyKick, LobbyBan, ha, Reply.errorCode, NewTPError]
  · simp [ServerVerify, ha, Reply.errorCode, NewTPError]
  · rcases hb : p.IsBannedWithTime w PlayerBanType.PlayerBanCreate with ⟨b, till⟩
    rw [hb] at hban
    simp only at hban
    subst hban
    simp [LobbyCreate, hp, hb, hne, hno, Reply.errorCode, NewTPError]
  · rw [LobbyLeave, (removePlayerFromLobby_inProgress w id lob so.SteamId hlob hst).1 p hp]
    rfl
  · rw [LobbyLeave, (removePlayerFromLobby_ended w id lob so.SteamId hlob hst).1 p hp]
    rfl
  · obtain ⟨e, he⟩ := hslot
    rcases hst with hst | hst <;>
      simp [LobbyLeave, removePlayerFromLobby, hp, hlob, hst, he, Reply.errorCode, NewTPError]
  · subst ha
    rcases hb : p.IsBannedWithTime w PlayerBanType.PlayerBanJoin with ⟨b, till⟩
    rw [hb] at hban
    simp only at hban
    subst hban
    simp [LobbyJoin, hp, hb, hlob, hst, Reply.errorCode, NewTPError]
  · simp only [LobbyClose, GetLobbyByIdServer, hp, hlob, Except.toOption]
    rw [if_neg hyes, if_pos hst]
    rfl
  · simp only [LobbyClose, GetLobbyByIdServer, hp, hlob, Except.toOption]
    rw [if_pos hno]
    rfl
  · subst ha
    have hk : playerCanKick w a.Id so.SteamId =
        (false, some (NewTPError "Not authorized to kick players" 1)) := by
      simp only [playerCanKick, hlob, hp]
      rw [if_pos ⟨hsid ▸ hno.1, hno.2⟩]
    simp [LobbyKick, LobbyBan, hne, hk, replyOf, Reply.errorCode, NewTPError]

/-- Witness for C13, amended: the replies `alice` gets on the closed lobby 1. -/
theorem error_code_signs_witness :
    (LobbyKick closedWorld aliceConn (.ok ⟨1, "alice"⟩)).2.errorCode = some (-1) ∧
    (ServerVerify (fun w _ _ => accept w) closedWorld aliceConn
      (.ok ⟨"no-port", "secret"⟩)).2.errorCode = some (-1) ∧
    (LobbyLeave closedWorld aliceConn (.ok ⟨1⟩)).2.errorCode = some 1 ∧
    (LobbyJoin table closedWorld aliceConn (.ok ⟨1, "scout1", "red", ""⟩)).2.errorCode =
      some (-1) ∧
    (LobbyKick closedWorld aliceConn (.ok ⟨1, "bob"⟩)).2.errorCode = some 1 :=
  have h := error_code_signs table (fun w _ _ => accept w) (fun w _ _ _ _ => accept w)
    closedWorld aliceConn 1 { mkLobby 1 LobbyState.Ended with ReadyUpTimestamp := 1030 }
    (mkPlayer "alice" Role.Normal) rfl rfl
  ⟨(h.1.1 ⟨1, "alice"⟩ rfl).1, h.1.2.1 ⟨"no-port", "secret"⟩ (by decide),
   h.2.1.2.1 rfl, h.2.2.1.1 rfl rfl ⟨1, "scout1", "red", ""⟩ rfl,
   ((h.2.2.2 (by decide)).2 ⟨1, "bob"⟩ rfl (by decide)).1⟩

/-! ### C14: room names -/

/-- The effects of the join hook. -/
theorem AfterLobbyJoin_log_eq (w : World) (so : Client) (lob : Lobby) (p : Player) :
    (chelpers.AfterLobbyJoin w so lob p).log =
      w.log ++ [Effect.AddClient so.Id (privateRoom lob.ID), Effect.SendMessage p.SteamID "lobbyJoined"] := by
  unfold chelpers.AfterLobbyJoin wsevent.AddClient broadcaster.SendMessage
  simp only [World.record]
  split_ifs <;> simp

/-- The tail of `LobbyJoin` only appends effects, none of them an unsubscription. -/
theorem afterJoin_log_ext (T : SlotTable) (w : World) (lob : Lobby) (p : Player) :
    ∃ t, (LobbyJoin.afterJoin T w lob p).1.log = w.log ++ t ∧
      t.filter Effect.isRemoveClient = [] := by
  unfold LobbyJoin.afterJoin
  simp only [Lobby.Save, BroadcastLobbyList, broadcaster.SendMessageToRoom,
    broadcaster.SendMessage, World.record]
  split_ifs
  · exact ⟨[Effect.Save lob.ID, Effect.AfterFunc 30 lob.ID,
      Effect.SendMessageToRoom (privateRoom lob.ID) "lobbyReadyUp", Effect.BroadcastLobbyList,
      Effect.SendMessage p.SteamID "lobbyStart"], by simp, rfl⟩
  · exact ⟨[Effect.Save lob.ID, Effect.AfterFunc 30 lob.ID,
      Effect.SendMessageToRoom (privateRoom lob.ID) "lobbyReadyUp", Effect.BroadcastLobbyList],
      by simp, rfl⟩
  · exact ⟨[Effect.SendMessage p.SteamID "lobbyStart"], rfl, rfl⟩
  · exact ⟨[], by simp, rfl⟩

/-- C14. Room names are collision-free: for lobby ids `a` and `b`, two public
names are equal exactly when `a = b`, two private names are equal exactly when
`a = b`, and a public name never equals a private one.  And when `LobbyJoin`
reaches the unsubscription for a previous lobby `prevId` (recorded player
without a join ban, open lobby, existing slot, seated in `prevId` other than 0
and other than the requested lobby), the `RemoveClient` calls it performs are
exactly those for the decimal `prevId` followed by `_public` and by `_private`,
on the connection of the caller. -/
theorem room_names (T : SlotTable) (a b : Nat) :
    ((publicRoom a = publicRoom b ↔ a = b) ∧
     (privateRoom a = privateRoom b ↔ a = b) ∧
     publicRoom a ≠ privateRoom b ∧
     privateRoom a ≠ publicRoom b) ∧
    (∀ (w : World) (so : Client) (args : JoinArgs) (player : Player) (lob : Lobby)
        (slot prevId : Nat),
      GetPlayerBySteamID w so.SteamId = .ok player →
      (player.IsBannedWithTime w PlayerBanType.PlayerBanJoin).1 = false →
      GetLobbyByID w args.Id = .ok lob →
      lob.State ≠ LobbyState.Ended →
      LobbyGetPlayerSlot T lob.Typ args.Team args.Class = .ok slot →
      player.GetLobbyID w false = (prevId, none) → prevId ≠ 0 → prevId ≠ args.Id →
      ((LobbyJoin T w so (.ok args)).1.log.drop w.log.length).filter Effect.isRemoveClient =
        [Effect.RemoveClient so.Id (toString prevId ++ "_public"),
         Effect.RemoveClient so.Id (toString prevId ++ "_private")]) := by
  refine ⟨room_names_collision_free a b, ?_⟩
  intro w so args player lob slot prevId hpl hban hlob hst hslot hprev h0 hdiff
  rcases hb : player.IsBannedWithTime w PlayerBanType.PlayerBanJoin with ⟨bn, till⟩
  rw [hb] at hban
  simp only at hban
  subst hban
  have hlog : ∃ t, (LobbyJoin T w so (.ok args)).1.log = w.log ++
      ([Effect.RemoveClient so.Id (publicRoom prevId),
        Effect.RemoveClient so.Id (privateRoom prevId)] ++ t) ∧
      t.filter Effect.isRemoveClient = [] := by
    unfold LobbyJoin
    simp only [hpl, hb, hlob, if_neg hst, hslot, hprev]
    rw [if_pos (by simp [h0, hdiff])]
    generalize hw1 : wsevent.RemoveClient (wsevent.RemoveClient w so.Id (publicRoom prevId))
      so.Id (privateRoom prevId) = w1
    have hl1 : w1.log = w.log ++ [Effect.RemoveClient so.Id (publicRoom prevId),
        Effect.RemoveClient so.Id (privateRoom prevId)] := by
      rw [← hw1]
      simp [wsevent.RemoveClient, World.record]
    have hl2 := AddPlayer_log w1 lob player slot args.Password
    rcases hr : lob.AddPlayer w1 player slot args.Password with ⟨w2, r⟩
    rw [hr] at hl2
    simp only at hl2
    cases r with
    | some e =>
      refine ⟨[Effect.AddPlayer lob.ID player.SteamID slot], ?_, rfl⟩
      simp [hl2, hl1]
    | none =>
      simp only
      rw [if_pos (by simp [hdiff])]
      obtain ⟨t, ht, hft⟩ := afterJoin_log_ext T (chelpers.AfterLobbyJoin w2 so lob player) lob player
      refine ⟨[Effect.AddPlayer lob.ID player.SteamID slot,
        Effect.AddClient so.Id (privateRoom lob.ID),
        Effect.SendMessage player.SteamID "lobbyJoined"] ++ t, ?_, ?_⟩
      · rw [ht, AfterLobbyJoin_log_eq, hl2, hl1]
        simp
      · simp [List.filter_append, hft, Effect.isRemoveClient]
  obtain ⟨t, ht, hft⟩ := hlog
  rw [ht, List.drop_left]
  simp [List.filter_append, hft, Effect.isRemoveClient, publicRoom, privateRoom]

/-- Witness for C14: `alice`, seated in lobby 1, joins lobby 2. -/
theorem room_names_witness :
    ((LobbyJoin table twoLobbies aliceConn (.ok ⟨2, "scout1", "blu", ""⟩)).1.log.drop
        twoLobbies.log.length).filter Effect.isRemoveClient =
      [Effect.RemoveClient "c-alice" "1_public", Effect.RemoveClient "c-alice" "1_private"] :=
  (room_names table 1 2).2 twoLobbies aliceConn ⟨2, "scout1", "blu", ""⟩
    (mkPlayer "alice" Role.Normal) (mkLobby 2 LobbyState.Waiting) 1 1
    rfl rfl rfl (by decide) rfl rfl (by decide) (by decide)

/-! ### C15: `parseTime` -/

/-- C15. On `1d12h` the result of `parseTime` advances the current time by one
day and no hours, although `12h` alone advances it by twelve hours; on `1y2m3w`
only the year is kept; and a later token whose number does not fit an `int` is
not reported, although the same token reported alone is an error.  Only the
first token of the string is read. -/
theorem parseTime_honours_first_token_only :
    admin.parseTime "1d12h" = .ok { years := 0, months := 0, days := 1, nanos := 0 } ∧
    admin.parseTime "12h" = .ok { years := 0, months := 0, days := 0, nanos := 43200000000000 } ∧
    admin.parseTime "1y2m3w" = .ok { years := 1, months := 0, days := 0, nanos := 0 } ∧
    admin.parseTime "1d99999999999999999999h" =
      .ok { years := 0, months := 0, days := 1, nanos := 0 } ∧
    admin.parseTime "99999999999999999999h" =
      .error "strconv.Atoi: parsing \"99999999999999999999\": value out of range" := by
  refine ⟨?_, ?_, ?_, ?_, ?_⟩ <;> rfl

/-! ### C16: `Lobby.Name` -/

/-- C16. For every non-empty string whose first byte `c` is an ASCII upper-case
letter (65 to 90), `Name` returns the string with the same length whose first
byte is `c + 32`, the lower-case form of `c` (97 to 122), and whose remaining
bytes are those of `s[1:]`. -/
theorem Name_lowers_first_byte (c : Nat) (rest : List Nat) (hlo : 65 ≤ c) (hhi : c ≤ 90) :
    Name (c :: rest) = some ((c + 32) :: rest) ∧
    ((c + 32) :: rest).length = (c :: rest).length ∧
    97 ≤ c + 32 ∧ c + 32 ≤ 122 := by
  have h1 : (c + 32) % 256 = c + 32 := Nat.mod_eq_of_lt (by omega)
  have h2 : c + 32 < 128 := by omega
  refine ⟨?_, by simp, by omega, by omega⟩
  simp [Name, stringOfByte, h1, h2]

/-- Witness for C16: the three handler names the tests address by their event
names. -/
theorem Name_lowers_first_byte_witness :
    Name (bytesOf "LobbyJoin") = some (bytesOf "lobbyJoin") ∧
    Name (bytesOf "LobbyCreate") = some (bytesOf "lobbyCreate") ∧
    Name (bytesOf "LobbySpectatorJoin") = some (bytesOf "lobbySpectatorJoin") :=
  ⟨(Name_lowers_first_byte 76 (bytesOf "obbyJoin") (by decide) (by decide)).1,
   (Name_lowers_first_byte 76 (bytesOf "obbyCreate") (by decide) (by decide)).1,
   (Name_lowers_first_byte 76 (bytesOf "obbySpectatorJoin") (by decide) (by decide)).1⟩

/-! ### C17: authorization of `LobbyServerReset` -/

/-- C17. For a recorded acting player and an existing lobby, `LobbyServerReset`
replies "Player not authorized to reset server." whenever the player is not the
creator or is not an administrator, so any other reply means the player is both.
A creator who is no administrator and an administrator who is not the creator
are both rejected, although `playerCanKick` accepts them and `LobbyClose` does
not answer them with its not-authorized error.  The test runs before the lookup
error is looked at: when the lobby lookup fails the reply is never that error,
the test dereferences the missing lobby. -/
theorem LobbyServerReset_authorization (w : World) (so : Client) (a : IdArgs) (player : Player)
    (hp : GetPlayerBySteamID w so.SteamId = .ok player) :
    (∀ lob, GetLobbyByID w a.Id = .ok lob →
      ((player.SteamID ≠ lob.CreatedBySteamID ∨ player.Role ≠ Role.Admin) →
        LobbyServerReset w so (.ok a) =
          (w, Reply.error (NewTPError "Player not authorized to reset server." (-1)))) ∧
      (LobbyServerReset w so (.ok a) ≠
          (w, Reply.error (NewTPError "Player not authorized to reset server." (-1))) →
        player.SteamID = lob.CreatedBySteamID ∧ player.Role = Role.Admin) ∧
      (player.SteamID = lob.CreatedBySteamID → player.Role ≠ Role.Admin →
        LobbyServerReset w so (.ok a) =
          (w, Reply.error (NewTPError "Player not authorized to reset server." (-1))) ∧
        playerCanKick w a.Id so.SteamId = (true, none) ∧
        LobbyClose w so (.ok a) ≠
          (w, Reply.error (NewTPError "Player not authorized to close lobby." (-1)))) ∧
      (player.SteamID ≠ lob.CreatedBySteamID → player.Role = Role.Admin →
        LobbyServerReset w so (.ok a) =
          (w, Reply.error (NewTPError "Player not authorized to reset server." (-1))) ∧
        playerCanKick w a.Id so.SteamId = (true, none) ∧
        LobbyClose w so (.ok a) ≠
          (w, Reply.error (NewTPError "Player not authorized to close lobby." (-1))))) ∧
    (∀ e, GetLobbyByID w a.Id = .error e →
      LobbyServerReset w so (.ok a) = (w, Reply.nilDeref)) := by
  have hsid : player.SteamID = so.SteamId := GetPlayerBySteamID_id w so.SteamId player hp
  have hrej : ∀ lob, GetLobbyByID w a.Id = .ok lob →
      (player.SteamID ≠ lob.CreatedBySteamID ∨ player.Role ≠ Role.Admin) →
      LobbyServerReset w so (.ok a) =
        (w, Reply.error (NewTPError "Player not authorized to reset server." (-1))) := by
    intro lob hlob hno
    simp only [LobbyServerReset, hp, hlob, Except.toOption]
    rw [if_pos hno]
  have hclose : ∀ lob, GetLobbyByID w a.Id = .ok lob →
      (player.SteamID = lob.CreatedBySteamID ∨ player.Role = Role.Admin) →
      LobbyClose w so (.ok a) ≠
        (w, Reply.error (NewTPError "Player not authorized to close lobby." (-1))) := by
    intro lob hlob hyes
    have hneg : ¬ (player.SteamID ≠ lob.CreatedBySteamID ∧ player.Role ≠ Role.Admin) := by
      rintro ⟨h1, h2⟩
      rcases hyes with h | h
      · exact h1 h
      · exact h2 h
    simp only [LobbyClose, GetLobbyByIdServer, hp, hlob, Except.toOption]
    rw [if_neg hneg]
    split_ifs
    · simp [NewTPError]
    · simp [SendNotification, BroadcastLobbyList, World.record]
  have hkick : ∀ lob, GetLobbyByID w a.Id = .ok lob →
      (player.SteamID = lob.CreatedBySteamID ∨ player.Role = Role.Admin) →
      playerCanKick w a.Id so.SteamId = (true, none) := by
    intro lob hlob hyes
    simp only [playerCanKick, hlob, hp]
    rw [if_neg]
    rintro ⟨h1, h2⟩
    rcases hyes with h | h
    · exact h1 (hsid ▸ h)
    · exact h2 h
  refine ⟨fun lob hlob => ⟨hrej lob hlob, fun hne => ?_, fun hc hr => ?_, fun hc hr => ?_⟩,
    fun e he => ?_⟩
  · by_contra hcon
    apply hne
    apply hrej lob hlob
    by_cases h1 : player.SteamID = lob.CreatedBySteamID
    · exact Or.inr (fun h2 => hcon ⟨h1, h2⟩)
    · exact Or.inl h1
  · exact ⟨hrej lob hlob (Or.inr hr), hkick lob hlob (Or.inl hc), hclose lob hlob (Or.inl hc)⟩
  · exact ⟨hrej lob hlob (Or.inl hc), hkick lob hlob (Or.inr hr), hclose lob hlob (Or.inr hr)⟩
  · simp only [LobbyServerReset, hp, he, Except.toOption]

/-- Witness for C17: the creator of lobby 1, who is no administrator, may kick
but not reset; on a lobby id without a row the handler dereferences nil. -/
theorem LobbyServerReset_authorization_witness :
    LobbyServerReset waitingWorld ownerConn (.ok ⟨1⟩) =
      (waitingWorld, Reply.error (NewTPError "Player not authorized to reset server." (-1))) ∧
    playerCanKick waitingWorld 1 "owner" = (true, none) ∧
    LobbyServerReset waitingWorld ownerConn (.ok ⟨7⟩) = (waitingWorld, Reply.nilDeref) :=
  have h := LobbyServerReset_authorization waitingWorld ownerConn ⟨1⟩
    (mkPlayer "owner" Role.Normal) rfl
  have h3 := (h.1 (mkLobby 1 LobbyState.Waiting) rfl).2.2.1 rfl (by decide)
  ⟨h3.1, h3.2.1,
   (LobbyServerReset_authorization waitingWorld ownerConn ⟨7⟩
      (mkPlayer "owner" Role.Normal) rfl).2 errLobbyNotFound rfl⟩
